import Mathlib

/-!
A verification development for the `gitlab-mcp-server` repository
(`src/bin/gitlab-mcp-server.js`).  The JavaScript source is shallowly
embedded: strings are modelled as `List Char` (`Str`), the filesystem and
the GitLab REST backend as explicit oracles, and every public operation of
the `GitLabMCPServer` class as a total Lean function returning the
`{success, message, data}` envelope the source produces, paired with the
ordered list of HTTP requests the run issues.
-/

/-- Strings of the JavaScript program, modelled as lists of characters. -/
abbrev Str := List Char

/-- Embed a Lean string literal as a `Str`. -/
def str (s : String) : Str := s.data

/-- Boolean test that `p` is an initial segment of the second list
(models JavaScript `String.startsWith` and `^`-anchored regex literals). -/
def isPre : Str → Str → Bool
  | [], _ => true
  | _ :: _, [] => false
  | a :: as, b :: bs => a == b && isPre as bs

/-- Boolean test that `s` is a final segment of `u`
(models JavaScript `/…$/` regex anchoring). -/
def endsWith (s u : Str) : Bool := u.drop (u.length - s.length) == s

/-- Boolean test that `p` occurs contiguously inside the second list
(models an unanchored regex substring requirement). -/
def isInfixStr (p : Str) : Str → Bool
  | [] => p.isEmpty
  | c :: rest => isPre p (c :: rest) || isInfixStr p rest

/-- Split a list on a separator character, keeping empty pieces
(models JavaScript `String.split('/')`). -/
def splitOnCharAux (sep : Char) : Str → Str → List Str
  | [], acc => [acc.reverse]
  | c :: rest, acc =>
    if c = sep then acc.reverse :: splitOnCharAux sep rest []
    else splitOnCharAux sep rest (c :: acc)

/-- Split a list on a separator character (JavaScript `split('/')`). -/
def splitOnChar (sep : Char) (s : Str) : List Str := splitOnCharAux sep s []

/-- Join path segments with `'/'` (models JavaScript `Array.join('/')`). -/
def joinSlash : List Str → Str
  | [] => []
  | [s] => s
  | s :: t :: rest => s ++ '/' :: joinSlash (t :: rest)

/-- Decimal rendering of a natural number (JavaScript number-to-string
interpolation in template literals). -/
def natToStr (n : Nat) : Str := str (Nat.repr n)

/-- The character class `[a-zA-Z0-9.-]` of the GitLab host regexes in
`isGitLabRepository` (src/bin/gitlab-mcp-server.js:56-63). -/
def isHostChar (c : Char) : Bool := c.isAlphanum || c == '.' || c == '-'

/-- Characters JavaScript `encodeURIComponent` leaves unescaped:
`A-Z a-z 0-9 - _ . ! ~ * ' ( )` (39 is the code of the single quote). -/
def isUnreservedJS (c : Char) : Bool :=
  c.isAlphanum || [45, 95, 46, 33, 126, 42, 40, 41, 39].contains c.toNat

/-- Upper-case hexadecimal digit, as produced by `encodeURIComponent`. -/
def hexDigit (n : Nat) : Char := if n < 10 then Char.ofNat (48 + n) else Char.ofNat (55 + n)

/-- UTF-8 bytes of a code point, used by `encodeURIComponent` for escaped
characters. -/
def utf8Bytes (n : Nat) : List Nat :=
  if n < 128 then [n]
  else if n < 2048 then [192 + n / 64, 128 + n % 64]
  else if n < 65536 then [224 + n / 4096, 128 + (n / 64) % 64, 128 + n % 64]
  else [240 + n / 262144, 128 + (n / 4096) % 64, 128 + (n / 64) % 64, 128 + n % 64]

/-- Percent-encoding of one character, as by JavaScript `encodeURIComponent`. -/
def pctEncodeChar (c : Char) : Str :=
  if isUnreservedJS c then [c]
  else (utf8Bytes c.toNat).flatMap (fun b => '%' :: hexDigit (b / 16) :: [hexDigit (b % 16)])

/-- JavaScript `encodeURIComponent` (src/bin/gitlab-mcp-server.js:96). -/
def encodeURIComponent (s : Str) : Str := s.flatMap pctEncodeChar

/-- `url.replace(/\.git$/, '')` — strip one trailing `.git`
(src/bin/gitlab-mcp-server.js:53 and :75). -/
def stripDotGit (u : Str) : Str :=
  if endsWith (str ".git") u then u.take (u.length - 4) else u

/-- `normalizedUrl.replace(/^git@([^:]+):/, 'https://$1/')` guarded by
`startsWith('git@')` (src/bin/gitlab-mcp-server.js:78-80).  The regex
matches exactly when at least one non-colon character follows `git@` and a
colon follows that run. -/
def normGitAt (u : Str) : Str :=
  if isPre (str "git@") u then
    let rest := u.drop 4
    let h := rest.takeWhile (fun c => c != ':')
    let t := rest.dropWhile (fun c => c != ':')
    if h.isEmpty || t.isEmpty then u
    else str "https://" ++ h ++ '/' :: t.tail
  else u

/-- `normalizedUrl.replace(/^ssh:\/\/git@/, 'https://')`
(src/bin/gitlab-mcp-server.js:83-85). -/
def normSsh (u : Str) : Str :=
  if isPre (str "ssh://git@") u then str "https://" ++ u.drop 10 else u

/-- The URL normalisation pipeline of `parseGitLabUrl`
(src/bin/gitlab-mcp-server.js:75-85): strip `.git`, rewrite the scp-like
`git@host:path` form, rewrite the `ssh://git@` form. -/
def normalizeUrl (u : Str) : Str := normSsh (normGitAt (stripDotGit u))

/-- Lower-case an ASCII letter (WHATWG URL host canonicalisation). -/
def lowerAscii (c : Char) : Char :=
  if 65 ≤ c.toNat && c.toNat ≤ 90 then Char.ofNat (c.toNat + 32) else c

/-- Host characters on which the `new URL` model is defined. -/
def hostCharOk (c : Char) : Bool := c.isAlphanum || c == '.' || c == '-' || c == '_'

/-- Printable ASCII path characters that the WHATWG URL parser keeps
verbatim (no query/fragment delimiters, no escaping-triggering characters). -/
def pathCharOk (c : Char) : Bool :=
  33 ≤ c.toNat && c.toNat ≤ 126 &&
  !([34, 35, 37, 60, 62, 63, 92, 94, 96, 123, 124, 125].contains c.toNat)

/-- Model of the platform `new URL(u)` constructor (an external library,
not repository code), restricted to the class of URLs this server
manipulates: an `https://` scheme, an authority that is a plain host
(no userinfo, no port), and a path without query, fragment, escapes or
dot-segments.  On that class it returns the lower-cased host and the
pathname; outside the class the model declines (`none`) rather than risk
diverging from the URL Standard — the development never asserts anything
about inputs the model declines. -/
def urlParse (u : Str) : Option (Str × Str) :=
  if isPre (str "https://") u then
    let rest := u.drop 8
    let host := rest.takeWhile (fun c => c != '/')
    let path := rest.dropWhile (fun c => c != '/')
    if host.isEmpty then none
    else if !host.all hostCharOk then none
    else if !path.all pathCharOk then none
    else if (splitOnChar '/' path).any (fun s => s == ['.'] || s == ['.', '.']) then none
    else some (host.map lowerAscii, if path.isEmpty then ['/'] else path)
  else none

/-- The project-identity record returned by `parseGitLabUrl`
(src/bin/gitlab-mcp-server.js:92-97).  `nspace` models the `namespace`
field (a Lean keyword), `projectId` the percent-encoded path identifier. -/
structure GitLabInfo where
  host : Str
  nspace : Str
  project : Str
  projectId : Str
deriving DecidableEq

/-- `parseGitLabUrl` (src/bin/gitlab-mcp-server.js:69-104): normalise the
remote URL, parse it as a URL, split the pathname on `/`, drop empty
segments, and require at least two segments; the last is the project, the
rest joined by `/` the namespace, and `projectId` is
`encodeURIComponent(pathParts.join('/'))`. -/
def parseGitLabUrl (url : Str) : Option GitLabInfo :=
  match urlParse (normalizeUrl url) with
  | none => none
  | some (host, pathname) =>
    let pathParts := (splitOnChar '/' pathname).filter (fun s => !s.isEmpty)
    if 2 ≤ pathParts.length then
      some { host := host
             nspace := joinSlash pathParts.dropLast
             project := pathParts.getLastD []
             projectId := encodeURIComponent (joinSlash pathParts) }
    else none

/-- One `^`-anchored host pattern of `isGitLabRepository`: after the fixed
scheme piece, a run of `[a-zA-Z0-9.-]` characters containing `gitlab`,
terminated by `term`.  Since the class excludes the terminator, the
matched host run is exactly the segment before the first terminator. -/
def hostPat (term : Char) (rest : Str) : Bool :=
  let h := rest.takeWhile (fun c => c != term)
  let t := rest.dropWhile (fun c => c != term)
  !t.isEmpty && h.all isHostChar && isInfixStr (str "gitlab") h

/-- `isGitLabRepository` (src/bin/gitlab-mcp-server.js:47-66): strip a
trailing `.git`, then test the three accepted URL shapes
(`https://host/…`, `git@host:…`, `ssh://git@host/…`) whose host matches
the GitLab family pattern.  The `gitlab\.com` regex alternative is
subsumed by the `[a-zA-Z0-9.-]*gitlab[a-zA-Z0-9.-]*` alternative. -/
def isGitLabRepository (url : Str) : Bool :=
  let n := stripDotGit url
  (isPre (str "https://") n && hostPat '/' (n.drop 8)) ||
  (isPre (str "git@") n && hostPat ':' (n.drop 4)) ||
  (isPre (str "ssh://git@") n && hostPat '/' (n.drop 10))

/-- A directory path, as the list of its segments below the walk's fixed
point; `[]` is the terminal directory at which `dirname` equals its
argument (`/` for absolute paths, `.` for relative ones). -/
abbrev DirPath := List Str

/-- The upward walk of `findGitRepository`, with an explicit recursion
bound: each step replaces the current directory by its parent
(`dropLast`, one segment shorter), so a bound equal to the starting depth
is never exhausted before the terminal directory is reached. -/
def findGitAux (fs : DirPath → Bool) : Nat → DirPath → Option DirPath
  | 0, _ => none
  | fuel + 1, p =>
    if p = [] then none
    else if fs p then some p
    else findGitAux fs fuel p.dropLast

/-- `findGitRepository` (src/bin/gitlab-mcp-server.js:32-44): walk upward
from `p`, returning the first directory whose `.git` entry exists
according to the filesystem snapshot `fs`.  The source loop runs only
while `currentPath !== dirname(currentPath)`, so the terminal directory
itself is never examined. -/
def findGitRepository (fs : DirPath → Bool) (p : DirPath) : Option DirPath :=
  findGitAux fs p.length p

example : parseGitLabUrl (str "https://gitlab.com/group/sub/proj.git") =
    some { host := str "gitlab.com", nspace := str "group/sub", project := str "proj",
           projectId := str "group%2Fsub%2Fproj" } := by decide

example : parseGitLabUrl (str "git@gitlab.com:ns/proj.git") =
    parseGitLabUrl (str "ssh://git@gitlab.com/ns/proj") := by decide

example : isGitLabRepository (str "git@gitlab.example.com:a/b.git") = true := by decide

example : isGitLabRepository (str "https://github.com/a/b") = false := by decide

example : findGitRepository (fun p => p = [str "a"]) [str "a", str "b"] = some [str "a"] := by decide

/-- A pipeline resource as returned by the GitLab JSON API, with exactly
the fields `getPipelineDetails` copies into its result
(src/bin/gitlab-mcp-server.js:243-257). -/
structure Pipeline where
  id : Nat
  status : Str
  ref : Str
  sha : Str
  web_url : Str
  created_at : Str
  updated_at : Str
  duration : Nat
  coverage : Str
  source : Str
  before_sha : Str
  tag : Bool
  yaml_errors : Str
  user : Str
deriving DecidableEq

/-- The `artifacts_file` sub-object of a job (filename and size). -/
structure ArtifactsFile where
  filename : Str
  size : Nat
deriving DecidableEq

/-- An artifact-metadata record; its internals are never inspected by the
server, so it is kept opaque as its raw JSON text. -/
abbrev Artifact := Str

/-- A job resource as returned by the GitLab JSON API, with the fields the
server reads: `id`, `name`, `artifacts_file` (absence or an empty
filename both count as "no artifacts"), and `artifacts`
(`job.artifacts || []` in `getJobArtifacts`). -/
structure Job where
  id : Nat
  name : Str
  artifacts_file : Option ArtifactsFile
  artifacts : List Artifact
deriving DecidableEq

/-- `job.artifacts_file && job.artifacts_file.filename` — the truthiness
test used both by `downloadJobArtifacts` (line 666) and by the filter in
`downloadPipelineArtifacts` (line 809); an empty filename is falsy. -/
def hasArtifactsFile (j : Job) : Bool :=
  match j.artifacts_file with
  | none => false
  | some af => !af.filename.isEmpty

/-- Outcome of one `fetch` call: a response with `ok = true` carrying the
parsed body, a response with `ok = false` carrying the HTTP status and
the body text, or a rejected promise (network-level error) carrying the
thrown error's message. -/
inductive Fetch (α : Type) where
  | ok : α → Fetch α
  | httpError : Nat → Str → Fetch α
  | netError : Str → Fetch α
deriving DecidableEq

/-- The bytes of a binary artifact archive (`response.buffer()`). -/
abbrev Buffer := List Nat

/-- The GitLab REST backend as a deterministic oracle, one field per
endpoint the server consumes. -/
structure Backend where
  listPipelines : Fetch (List Pipeline)
  getPipeline : Nat → Fetch Pipeline
  listJobs : Nat → Fetch (List Job)
  listPipelineArtifacts : Nat → Fetch (List Artifact)
  getTrace : Nat → Fetch Str
  getJob : Nat → Fetch Job
  jobArtifacts : Nat → Fetch Buffer

/-- One HTTP request issued during a run, identified by its endpoint; the
job-artifact metadata fetch and the archive download hit the same
`/jobs/:id/artifacts` endpoint and share a constructor. -/
inductive Req where
  | listPipelines
  | getPipeline (pipelineId : Nat)
  | listJobs (pipelineId : Nat)
  | listPipelineArtifacts (pipelineId : Nat)
  | getTrace (jobId : Nat)
  | getJob (jobId : Nat)
  | jobArtifacts (jobId : Nat)
deriving DecidableEq

/-- The local environment of one invocation: the filesystem snapshot used
by `findGitRepository`, the starting `projectPath`, the result of
`git remote get-url origin` (`.error` models a throwing `execSync`), and
the `GITLAB_TOKEN` environment variable. -/
structure Env where
  fs : DirPath → Bool
  projectPath : DirPath
  remoteUrl : Except Str Str
  token : Option Str

/-- The `{success, message, data}` envelope every public operation
returns. -/
structure OpResult (α : Type) where
  success : Bool
  message : Str
  data : Option α
deriving DecidableEq

/-- A failure envelope, as produced by each method's `catch` block. -/
def opFail {α : Type} (m : Str) : OpResult α := ⟨false, m, none⟩

/-- A success envelope with a payload. -/
def opOk {α : Type} (m : Str) (d : α) : OpResult α := ⟨true, m, some d⟩

/-- Rendering of a `DirPath` into message interpolations; the exact
rendering of paths inside human-readable messages is abstracted. -/
def pathStr (p : DirPath) : Str := '/' :: joinSlash p

/-- `Git репозиторий не найден в указанной директории: ${projectPath}`. -/
def msgNoGitRepo (p : DirPath) : Str :=
  str "Git репозиторий не найден в указанной директории: " ++ pathStr p

/-- `Это не GitLab репозиторий: ${repoUrl}`. -/
def msgNotGitLab (u : Str) : Str := str "Это не GitLab репозиторий: " ++ u

/-- `Не удалось распарсить GitLab URL: ${repoUrl}`. -/
def msgParseFail (u : Str) : Str := str "Не удалось распарсить GitLab URL: " ++ u

/-- The missing-credential message (src/bin/gitlab-mcp-server.js:134). -/
def msgNoToken : Str :=
  str "GITLAB_TOKEN не установлен. Установите переменную окружения GITLAB_TOKEN для доступа к GitLab API."

/-- `GitLab API вернул ошибку при получении последнего пайплайна S: body`. -/
def msgLatestErr (s : Nat) (body : Str) : Str :=
  str "GitLab API вернул ошибку при получении последнего пайплайна " ++ natToStr s ++ str ": " ++ body

/-- The empty-pipeline-list message `Пайплайны не найдены`. -/
def msgNoPipelines : Str := str "Пайплайны не найдены"

/-- `GitLab API вернул ошибку при получении пайплайна S: body`. -/
def msgPipelineErr (s : Nat) (body : Str) : Str :=
  str "GitLab API вернул ошибку при получении пайплайна " ++ natToStr s ++ str ": " ++ body

/-- `GitLab API вернул ошибку при получении джоба S: body`. -/
def msgJobErr (s : Nat) (body : Str) : Str :=
  str "GitLab API вернул ошибку при получении джоба " ++ natToStr s ++ str ": " ++ body

/-- `GitLab API вернул ошибку при получении джобов пайплайна S: body`. -/
def msgPipelineJobsErr (s : Nat) (body : Str) : Str :=
  str "GitLab API вернул ошибку при получении джобов пайплайна " ++ natToStr s ++ str ": " ++ body

/-- `GitLab API вернул ошибку при скачивании артефактов S: body`. -/
def msgDownloadErr (s : Nat) (body : Str) : Str :=
  str "GitLab API вернул ошибку при скачивании артефактов " ++ natToStr s ++ str ": " ++ body

/-- `GitLab API вернул ошибку S: body` (from `getLatestPipeline`). -/
def msgApiErr (s : Nat) (body : Str) : Str :=
  str "GitLab API вернул ошибку " ++ natToStr s ++ str ": " ++ body

/-- The shared prologue every public method runs verbatim
(e.g. src/bin/gitlab-mcp-server.js:110-135): find the Git root, read the
`origin` remote URL, check it is a GitLab URL, parse it, then check the
token — in that order, all before any HTTP request. -/
def resolveProject (env : Env) : Except Str GitLabInfo :=
  match findGitRepository env.fs env.projectPath with
  | none => .error (msgNoGitRepo env.projectPath)
  | some _ =>
    match env.remoteUrl with
    | .error m => .error m
    | .ok url =>
      if isGitLabRepository url then
        match parseGitLabUrl url with
        | some info =>
          match env.token with
          | some _ => .ok info
          | none => .error msgNoToken
        | none => .error (msgParseFail url)
      else .error (msgNotGitLab url)

/-- Outcome of the shared "resolve the latest pipeline id" block
(src/bin/gitlab-mcp-server.js:138-164 and :763-790, duplicated verbatim
in both methods): the list query failed, the list was empty (the
success-with-null early return), or an id was resolved. -/
inductive PidResolution where
  | failed (m : Str)
  | empty
  | resolved (pid : Nat)
deriving DecidableEq

/-- Resolve the effective pipeline id: use the argument if given,
otherwise query `pipelines?per_page=1&order_by=updated_at&sort=desc` and
take the first element's id. -/
def resolvePipelineId (b : Backend) : Option Nat → PidResolution × List Req
  | some p => (.resolved p, [])
  | none =>
    match b.listPipelines with
    | .ok [] => (.empty, [.listPipelines])
    | .ok (p :: _) => (.resolved p.id, [.listPipelines])
    | .httpError s body => (.failed (msgLatestErr s body), [.listPipelines])
    | .netError m => (.failed m, [.listPipelines])

/-- The project snapshot `{host, namespace, name}` embedded in results. -/
structure Project where
  host : Str
  nspace : Str
  name : Str
deriving DecidableEq

/-- Build the embedded project snapshot from the parsed identity. -/
def mkProject (info : GitLabInfo) : Project :=
  ⟨info.host, info.nspace, info.project⟩

/-- A job with its fetched `trace` attached (`{...job, trace}`). -/
structure JobWithTrace where
  job : Job
  trace : Str
deriving DecidableEq

/-- The diagnostic placeholder a failed (thrown) trace fetch leaves in the
job's `trace` field: `Ошибка при получении логов: ${error.message}`
(src/bin/gitlab-mcp-server.js:234). -/
def traceErrMsg (m : Str) : Str := str "Ошибка при получении логов: " ++ m

/-- The per-job trace attachment of `getPipelineDetails`
(src/bin/gitlab-mcp-server.js:211-237).  Each job's fetch runs inside its
own `try`: an `ok` response attaches the body, a non-ok response leaves
`trace` as the initial `''`, and a thrown error is caught per job and
attaches the diagnostic placeholder. -/
def attachTrace (b : Backend) (j : Job) : JobWithTrace :=
  match b.getTrace j.id with
  | .ok t => ⟨j, t⟩
  | .httpError _ _ => ⟨j, []⟩
  | .netError m => ⟨j, traceErrMsg m⟩

/-- The pipeline object inside `getPipelineDetails`' payload: the fetched
pipeline's fields plus the embedded project snapshot. -/
structure AggPipeline where
  pipeline : Pipeline
  project : Project
deriving DecidableEq

/-- The composed `{pipeline, jobs, artifacts}` payload. -/
structure AggData where
  pipeline : AggPipeline
  jobs : List JobWithTrace
  artifacts : List Artifact
deriving DecidableEq

/-- `Подробная информация о пайплайне получена успешно`. -/
def msgAggSuccess : Str := str "Подробная информация о пайплайне получена успешно"

/-- Soft handling of a list-returning fetch (`let xs = []; if (resp.ok)
xs = await resp.json()`): an ok body is used, a non-ok response silently
falls back to `[]`, and only a thrown fetch escapes to the outer catch. -/
def softList {α : Type} : Fetch (List α) → Except Str (List α)
  | .ok l => .ok l
  | .httpError _ _ => .ok []
  | .netError m => .error m

/-- `getPipelineDetails` (src/bin/gitlab-mcp-server.js:107-276): resolve
the project and pipeline id, fetch the pipeline (a failure here aborts),
fetch the job listing and artifact metadata (non-ok responses fall back
to `[]`), attach each job's trace, and compose the payload.  The second
component is the ordered list of HTTP requests the run issued. -/
def getPipelineDetails (env : Env) (b : Backend) (pid : Option Nat) :
    OpResult AggData × List Req :=
  match resolveProject env with
  | .error m => (opFail m, [])
  | .ok info =>
    match resolvePipelineId b pid with
    | (.failed m, log) => (opFail m, log)
    | (.empty, log) => (⟨true, msgNoPipelines, none⟩, log)
    | (.resolved pipelineId, log) =>
      match b.getPipeline pipelineId with
      | .httpError s body => (opFail (msgPipelineErr s body), log ++ [.getPipeline pipelineId])
      | .netError m => (opFail m, log ++ [.getPipeline pipelineId])
      | .ok pl =>
        let log := log ++ [.getPipeline pipelineId, .listJobs pipelineId]
        match softList (b.listJobs pipelineId) with
        | .error m => (opFail m, log)
        | .ok jobs =>
          let log := log ++ [.listPipelineArtifacts pipelineId]
          match softList (b.listPipelineArtifacts pipelineId) with
          | .error m => (opFail m, log)
          | .ok artifacts =>
            (opOk msgAggSuccess
              { pipeline := ⟨pl, mkProject info⟩
                jobs := jobs.map (attachTrace b)
                artifacts := artifacts },
             log ++ jobs.map (fun j => .getTrace j.id))

/-- `Последний пайплайн получен успешно`. -/
def msgLatestSuccess : Str := str "Последний пайплайн получен успешно"

/-- The payload of `getLatestPipeline`
(src/bin/gitlab-mcp-server.js:591-606): a subset of the pipeline's fields
(`id` … `coverage`) plus the project snapshot. -/
structure LatestData where
  id : Nat
  status : Str
  ref : Str
  sha : Str
  web_url : Str
  created_at : Str
  updated_at : Str
  duration : Nat
  coverage : Str
  project : Project
deriving DecidableEq

/-- `getLatestPipeline` (src/bin/gitlab-mcp-server.js:528-616): prologue,
then one `pipelines?per_page=1…` query; an empty list yields the
success-with-null envelope, otherwise the first pipeline's fields are
returned. -/
def getLatestPipeline (env : Env) (b : Backend) : OpResult LatestData × List Req :=
  match resolveProject env with
  | .error m => (opFail m, [])
  | .ok info =>
    match b.listPipelines with
    | .httpError s body => (opFail (msgApiErr s body), [.listPipelines])
    | .netError m => (opFail m, [.listPipelines])
    | .ok [] => (⟨true, msgNoPipelines, none⟩, [.listPipelines])
    | .ok (p :: _) =>
      (opOk msgLatestSuccess
        { id := p.id, status := p.status, ref := p.ref, sha := p.sha,
          web_url := p.web_url, created_at := p.created_at,
          updated_at := p.updated_at, duration := p.duration,
          coverage := p.coverage, project := mkProject info },
       [.listPipelines])

/-- `Информация о джобе получена успешно`. -/
def msgJobSuccess : Str := str "Информация о джобе получена успешно"

/-- The `{job, project}` payload of `getJobDetails`. -/
structure JobData where
  job : Job
  project : Project
deriving DecidableEq

/-- `getJobDetails` (src/bin/gitlab-mcp-server.js:279-345): prologue, then
fetch the job; any fetch failure aborts with the failure envelope. -/
def getJobDetails (env : Env) (b : Backend) (jobId : Nat) : OpResult JobData × List Req :=
  match resolveProject env with
  | .error m => (opFail m, [])
  | .ok info =>
    match b.getJob jobId with
    | .httpError s body => (opFail (msgJobErr s body), [.getJob jobId])
    | .netError m => (opFail m, [.getJob jobId])
    | .ok job => (opOk msgJobSuccess ⟨job, mkProject info⟩, [.getJob jobId])

/-- `Логи джоба получены успешно`. -/
def msgJobLogsSuccess : Str := str "Логи джоба получены успешно"

/-- The `{job, logs, project}` payload of `getJobLogs`. -/
structure JobLogsData where
  job : Job
  logs : Str
  project : Project
deriving DecidableEq

/-- `getJobLogs` (src/bin/gitlab-mcp-server.js:348-429): prologue, fetch
the job (failure aborts), then fetch the trace: here the trace fetch is
not individually guarded, so a thrown trace fetch aborts the whole
operation, while a non-ok response leaves `logs` as `''`. -/
def getJobLogs (env : Env) (b : Backend) (jobId : Nat) : OpResult JobLogsData × List Req :=
  match resolveProject env with
  | .error m => (opFail m, [])
  | .ok info =>
    match b.getJob jobId with
    | .httpError s body => (opFail (msgJobErr s body), [.getJob jobId])
    | .netError m => (opFail m, [.getJob jobId])
    | .ok job =>
      match b.getTrace jobId with
      | .netError m => (opFail m, [.getJob jobId, .getTrace jobId])
      | .httpError _ _ =>
        (opOk msgJobLogsSuccess ⟨job, [], mkProject info⟩, [.getJob jobId, .getTrace jobId])
      | .ok t =>
        (opOk msgJobLogsSuccess ⟨job, t, mkProject info⟩, [.getJob jobId, .getTrace jobId])

/-- `Артефакты джоба получены успешно`. -/
def msgJobArtifactsSuccess : Str := str "Артефакты джоба получены успешно"

/-- The `{job, artifacts, project}` payload of `getJobArtifacts`. -/
structure JobArtifactsData where
  job : Job
  artifacts : List Artifact
  project : Project
deriving DecidableEq

/-- `getJobArtifacts` (src/bin/gitlab-mcp-server.js:432-525): prologue,
fetch the job (failure aborts), then probe the `/jobs/:id/artifacts`
endpoint twice (the source issues the same request again inside the first
`ok` branch); only when both probes are ok is `job.artifacts` surfaced,
otherwise the artifact list stays `[]`.  A thrown probe aborts. -/
def getJobArtifacts (env : Env) (b : Backend) (jobId : Nat) :
    OpResult JobArtifactsData × List Req :=
  match resolveProject env with
  | .error m => (opFail m, [])
  | .ok info =>
    match b.getJob jobId with
    | .httpError s body => (opFail (msgJobErr s body), [.getJob jobId])
    | .netError m => (opFail m, [.getJob jobId])
    | .ok job =>
      match b.jobArtifacts jobId with
      | .netError m => (opFail m, [.getJob jobId, .jobArtifacts jobId])
      | .httpError _ _ =>
        (opOk msgJobArtifactsSuccess ⟨job, [], mkProject info⟩,
         [.getJob jobId, .jobArtifacts jobId])
      | .ok _ =>
        match b.jobArtifacts jobId with
        | .netError m => (opFail m, [.getJob jobId, .jobArtifacts jobId, .jobArtifacts jobId])
        | .httpError _ _ =>
          (opOk msgJobArtifactsSuccess ⟨job, [], mkProject info⟩,
           [.getJob jobId, .jobArtifacts jobId, .jobArtifacts jobId])
        | .ok _ =>
          (opOk msgJobArtifactsSuccess ⟨job, job.artifacts, mkProject info⟩,
           [.getJob jobId, .jobArtifacts jobId, .jobArtifacts jobId])

/-- `У джоба нет артефактов для скачивания`. -/
def msgNoJobArtifactsToDownload : Str := str "У джоба нет артефактов для скачивания"

/-- `Артефакты джоба скачаны успешно`. -/
def msgJobDownloaded : Str := str "Артефакты джоба скачаны успешно"

/-- The payload of `downloadJobArtifacts`; in the source the no-artifact
early return carries only `{job, downloadedFiles: [], downloadPath: null}`
and omits `archivePath`/`archiveSize`, modelled here as `none`/`0`. -/
structure JobDownloadData where
  job : Job
  downloadedFiles : List Str
  downloadPath : Option DirPath
  archivePath : Option DirPath
  archiveSize : Nat
deriving DecidableEq

/-- `artifacts_job_${jobId}.zip` — the archive filename of
`downloadJobArtifacts`. -/
def jobArchiveName (jobId : Nat) : Str :=
  str "artifacts_job_" ++ natToStr jobId ++ str ".zip"

/-- The default download directory `join(projectPath, 'artifacts',
'job_<id>')`. -/
def defaultJobDir (projectPath : DirPath) (jobId : Nat) : DirPath :=
  projectPath ++ [str "artifacts", str "job_" ++ natToStr jobId]

/-- `downloadJobArtifacts` (src/bin/gitlab-mcp-server.js:619-730):
prologue, fetch the job (failure aborts); a job without artifact-file
metadata returns success with an empty file list; otherwise the archive
is fetched — here a non-ok response *throws* (unlike the pipeline-wide
variant) — and persisted.  Directory creation and the file write are
local side effects outside the model. -/
def downloadJobArtifacts (env : Env) (b : Backend) (jobId : Nat)
    (downloadPath : Option DirPath) : OpResult JobDownloadData × List Req :=
  match resolveProject env with
  | .error m => (opFail m, [])
  | .ok _info =>
    match b.getJob jobId with
    | .httpError s body => (opFail (msgJobErr s body), [.getJob jobId])
    | .netError m => (opFail m, [.getJob jobId])
    | .ok job =>
      if hasArtifactsFile job then
        let target := downloadPath.getD (defaultJobDir env.projectPath jobId)
        match b.jobArtifacts jobId with
        | .httpError s body =>
          (opFail (msgDownloadErr s body), [.getJob jobId, .jobArtifacts jobId])
        | .netError m => (opFail m, [.getJob jobId, .jobArtifacts jobId])
        | .ok buf =>
          (opOk msgJobDownloaded
            { job := job
              downloadedFiles := [jobArchiveName jobId]
              downloadPath := some target
              archivePath := some (target ++ [jobArchiveName jobId])
              archiveSize := buf.length },
           [.getJob jobId, .jobArtifacts jobId])
      else
        (opOk msgNoJobArtifactsToDownload
          { job := job, downloadedFiles := [], downloadPath := none,
            archivePath := none, archiveSize := 0 },
         [.getJob jobId])

/-- One per-job record of `downloadResults`
(src/bin/gitlab-mcp-server.js:857-883). -/
structure DownloadOutcome where
  jobId : Nat
  jobName : Str
  fileName : Option Str
  size : Nat
  success : Bool
  error : Option Str
deriving DecidableEq

/-- `job.name.replace(/[^a-zA-Z0-9]/g, '_')`. -/
def sanitizeName (s : Str) : Str := s.map (fun c => if c.isAlphanum then c else '_')

/-- `artifacts_job_${job.id}_${sanitized}.zip` — the per-job archive
filename of `downloadPipelineArtifacts`. -/
def pipelineArchiveName (j : Job) : Str :=
  str "artifacts_job_" ++ natToStr j.id ++ '_' :: sanitizeName j.name ++ str ".zip"

/-- One iteration of the sequential download loop
(src/bin/gitlab-mcp-server.js:840-884), wrapped in its own `try`: an ok
response records a successful outcome, a non-ok response records a
failure with `HTTP ${status}`, and a thrown error is caught and records
a failure with the error's message.  No iteration result depends on any
other iteration, so the loop body is a function of the job alone. -/
def downloadOne (b : Backend) (j : Job) : DownloadOutcome :=
  match b.jobArtifacts j.id with
  | .ok buf =>
    { jobId := j.id, jobName := j.name, fileName := some (pipelineArchiveName j),
      size := buf.length, success := true, error := none }
  | .httpError s _ =>
    { jobId := j.id, jobName := j.name, fileName := none,
      size := 0, success := false, error := some (str "HTTP " ++ natToStr s) }
  | .netError m =>
    { jobId := j.id, jobName := j.name, fileName := none,
      size := 0, success := false, error := some m }

/-- `В пайплайне нет джобов с артефактами`. -/
def msgNoArtifactJobs : Str := str "В пайплайне нет джобов с артефактами"

/-- `Артефакты пайплайна скачаны. Успешно: X, Ошибок: Y`. -/
def msgDownloadSummary (okCount errCount : Nat) : Str :=
  str "Артефакты пайплайна скачаны. Успешно: " ++ natToStr okCount ++
  str ", Ошибок: " ++ natToStr errCount

/-- The payload of `downloadPipelineArtifacts`; the no-artifact-jobs early
return omits `jobsWithArtifacts`/`downloadResults` in the source and
carries `downloadPath: null`, modelled as empty lists and `none`. -/
structure PipelineDownloadData where
  pipelineId : Nat
  jobs : List Job
  jobsWithArtifacts : List Job
  downloadedFiles : List Str
  downloadPath : Option DirPath
  downloadResults : List DownloadOutcome
deriving DecidableEq

/-- The default download directory `join(projectPath, 'artifacts',
'pipeline_<id>')`. -/
def defaultPipelineDir (projectPath : DirPath) (pipelineId : Nat) : DirPath :=
  projectPath ++ [str "artifacts", str "pipeline_" ++ natToStr pipelineId]

/-- `downloadPipelineArtifacts` (src/bin/gitlab-mcp-server.js:733-906):
prologue and pipeline-id resolution as in `getPipelineDetails`; then the
job listing is fetched and — unlike `getPipelineDetails` — a non-ok
response *throws* (line 801-804).  Jobs are filtered to those carrying
artifact-file metadata; with none the operation succeeds with an empty
outcome set; otherwise each job's archive is downloaded sequentially,
producing one `DownloadOutcome` per job whether it succeeds or fails. -/
def downloadPipelineArtifacts (env : Env) (b : Backend) (pid : Option Nat)
    (downloadPath : Option DirPath) : OpResult PipelineDownloadData × List Req :=
  match resolveProject env with
  | .error m => (opFail m, [])
  | .ok _info =>
    match resolvePipelineId b pid with
    | (.failed m, log) => (opFail m, log)
    | (.empty, log) => (⟨true, msgNoPipelines, none⟩, log)
    | (.resolved pipelineId, log) =>
      let log := log ++ [.listJobs pipelineId]
      match b.listJobs pipelineId with
      | .httpError s body => (opFail (msgPipelineJobsErr s body), log)
      | .netError m => (opFail m, log)
      | .ok jobs =>
        let jobsWithArtifacts := jobs.filter hasArtifactsFile
        if jobsWithArtifacts.isEmpty then
          (opOk msgNoArtifactJobs
            { pipelineId := pipelineId, jobs := jobs, jobsWithArtifacts := [],
              downloadedFiles := [], downloadPath := none, downloadResults := [] },
           log)
        else
          let target := downloadPath.getD (defaultPipelineDir env.projectPath pipelineId)
          let downloadResults := jobsWithArtifacts.map (downloadOne b)
          let downloadedFiles := downloadResults.filterMap (fun r => r.fileName)
          (opOk (msgDownloadSummary
                  (downloadResults.filter (fun r => r.success)).length
                  (downloadResults.filter (fun r => !r.success)).length)
            { pipelineId := pipelineId, jobs := jobs,
              jobsWithArtifacts := jobsWithArtifacts,
              downloadedFiles := downloadedFiles,
              downloadPath := some target,
              downloadResults := downloadResults },
           log ++ jobsWithArtifacts.map (fun j => .jobArtifacts j.id))

/-- Sample filesystem for concrete runs: only `/repo` has a `.git`. -/
def sampleFs : DirPath → Bool := fun p => p == [str "repo"]

/-- Sample environment in which the prologue fully succeeds. -/
def sampleEnv : Env :=
  { fs := sampleFs
    projectPath := [str "repo"]
    remoteUrl := .ok (str "https://gitlab.com/grp/proj")
    token := some (str "tok") }

/-- `sampleEnv` with the `GITLAB_TOKEN` variable unset. -/
def sampleEnvNoToken : Env :=
  { sampleEnv with token := none }

/-- A concrete pipeline resource used by sample backends. -/
def samplePipeline (i : Nat) : Pipeline :=
  { id := i, status := str "success", ref := str "main", sha := str "abc",
    web_url := str "https://gitlab.com/grp/proj/-/pipelines/1",
    created_at := str "t0", updated_at := str "t1", duration := 10,
    coverage := str "", source := str "push", before_sha := str "",
    tag := false, yaml_errors := str "", user := str "u" }

/-- A concrete job carrying artifact-file metadata. -/
def sampleJob (i : Nat) : Job :=
  { id := i, name := str "build", artifacts_file := some ⟨str "a.zip", 5⟩,
    artifacts := [] }

/-- Characterisation of the bounded walk `findGitAux` for any sufficient
bound: `none` exactly when no strict-depth ancestor (`take k`, `k ≥ 1`)
has the marker, and any returned directory is the deepest marked
ancestor. -/
theorem findGitAux_spec (fs : DirPath → Bool) :
    ∀ (fuel : Nat) (p : DirPath), p.length ≤ fuel →
      (findGitAux fs fuel p = none ↔
        ∀ k, 0 < k → k ≤ p.length → fs (p.take k) = false) ∧
      (∀ r, findGitAux fs fuel p = some r →
        fs r = true ∧ r ≠ [] ∧
        (∃ k, 0 < k ∧ k ≤ p.length ∧ r = p.take k) ∧
        (∀ k, r.length < k → k ≤ p.length → fs (p.take k) = false)) := by
  intro fuel
  induction fuel with
  | zero =>
    intro p hp
    have hp0 : p = [] := by
      cases p with
      | nil => rfl
      | cons a as => simp at hp
    subst hp0
    constructor
    · simp [findGitAux]
      intro k hk hk'
      omega
    · intro r hr
      simp [findGitAux] at hr
  | succ n ih =>
    intro p hp
    by_cases hnil : p = []
    · subst hnil
      constructor
      · simp [findGitAux]
        intro k hk hk'
        omega
      · intro r hr
        simp [findGitAux] at hr
    · have hlen : 0 < p.length := List.length_pos.mpr hnil
      by_cases hfs : fs p = true
      · constructor
        · simp [findGitAux, hnil, hfs]
          refine ⟨p.length, hlen, le_refl _, ?_⟩
          rw [List.take_length]
          simp [hfs]
        · intro r hr
          simp [findGitAux, hnil, hfs] at hr
          subst hr
          refine ⟨hfs, hnil, ⟨p.length, hlen, le_refl _, (List.take_length p).symm⟩, ?_⟩
          intro k hk hk'
          omega
      · have hstep : findGitAux fs (n + 1) p = findGitAux fs n p.dropLast := by
          simp [findGitAux, hnil, hfs]
        have hdl : p.dropLast.length ≤ n := by
          have := List.length_dropLast p
          omega
        have htake : ∀ k, k ≤ p.length - 1 → p.dropLast.take k = p.take k := by
          intro k hk
          rw [List.dropLast_eq_take, List.take_take]
          congr 1
          omega
        have hdllen : p.dropLast.length = p.length - 1 := List.length_dropLast p
        obtain ⟨ihnone, ihsome⟩ := ih p.dropLast hdl
        constructor
        · rw [hstep, ihnone]
          constructor
          · intro h k hk hk'
            by_cases hkl : k ≤ p.length - 1
            · rw [← htake k hkl]
              exact h k hk (by omega)
            · have hkk : k = p.length := by omega
              subst hkk
              rw [List.take_length]
              simpa using hfs
          · intro h k hk hk'
            rw [htake k (by omega)]
            exact h k hk (by omega)
        · intro r hr
          rw [hstep] at hr
          obtain ⟨h1, h2, ⟨k, hk, hk', hkr⟩, hmax⟩ := ihsome r hr
          refine ⟨h1, h2, ⟨k, hk, by omega, by rw [hkr, htake k (by omega)]⟩, ?_⟩
          intro j hj hj'
          by_cases hjl : j ≤ p.length - 1
          · rw [← htake j hjl]
            exact hmax j hj (by omega)
          · have hjj : j = p.length := by omega
            subst hjj
            rw [List.take_length]
            simpa using hfs

/-- C4 (amended): `findGitRepository` returns `none` exactly when no
ancestor of the start path *strictly below the terminal root* (that is,
`p.take k` for `1 ≤ k ≤ p.length`; the root `[]` is never examined)
carries the version-control marker, and when it returns a directory, that
directory is the deepest marked ancestor — the closest one to the start
path, inclusive of the start path itself. -/
theorem findGitRepository_closest_ancestor (fs : DirPath → Bool) (p : DirPath) :
    (findGitRepository fs p = none ↔
      ∀ k, 0 < k → k ≤ p.length → fs (p.take k) = false) ∧
    (∀ r, findGitRepository fs p = some r →
      fs r = true ∧ r ≠ [] ∧
      (∃ k, 0 < k ∧ k ≤ p.length ∧ r = p.take k) ∧
      (∀ k, r.length < k → k ≤ p.length → fs (p.take k) = false)) :=
  findGitAux_spec fs p.length p (le_refl _)

/-- Witness for C4's amended theorem at a concrete filesystem: marker at
depth 1, start at depth 2 — the walk cannot report `none`. -/
theorem findGitRepository_closest_ancestor_witness :
    findGitRepository (fun q => q == [str "a"]) [str "a", str "b"] ≠ none := by
  intro h
  have h1 := (findGitRepository_closest_ancestor
      (fun q => q == [str "a"]) [str "a", str "b"]).1.mp h 1 (by decide) (by decide)
  exact absurd h1 (by decide)

/-- C4 counterexample: a filesystem whose *only* marked directory is the
terminal root.  The source loop exits as soon as `currentPath` equals its
parent, before checking it, so the marker at the root is never seen and
the walk reports not-found — the claim's "inclusive of the filesystem
root" fails. -/
theorem findGitRepository_root_never_checked :
    (fun q : DirPath => q.isEmpty) [] = true ∧
    findGitRepository (fun q : DirPath => q.isEmpty) [str "a"] = none ∧
    findGitRepository (fun q : DirPath => q.isEmpty) [] = none := by
  decide

/-- `isPre p` holds on any extension of `p`. -/
theorem isPre_append_self (p r : Str) : isPre p (p ++ r) = true := by
  induction p with
  | nil => rfl
  | cons c cs ih => simp [isPre, ih]

/-- A `takeWhile` scan runs through a fully satisfying block and stops at
the first failing character. -/
theorem takeWhile_append_stop {q : Char → Bool} (a : Str) {c : Char} (b : Str)
    (ha : ∀ x ∈ a, q x = true) (hc : q c = false) :
    (a ++ c :: b).takeWhile q = a := by
  induction a with
  | nil => simp [List.takeWhile, hc]
  | cons x xs ih =>
    have hx : q x = true := ha x (by simp)
    simp only [List.cons_append, List.takeWhile_cons, hx, if_true]
    rw [ih (fun y hy => ha y (by simp [hy]))]

/-- A `dropWhile` scan drops a fully satisfying block and halts at the
first failing character. -/
theorem dropWhile_append_stop {q : Char → Bool} (a : Str) {c : Char} (b : Str)
    (ha : ∀ x ∈ a, q x = true) (hc : q c = false) :
    (a ++ c :: b).dropWhile q = c :: b := by
  induction a with
  | nil => simp [List.dropWhile, hc]
  | cons x xs ih =>
    have hx : q x = true := ha x (by simp)
    simp only [List.cons_append, List.dropWhile_cons, hx, if_true]
    exact ih (fun y hy => ha y (by simp [hy]))

/-- Characters of the GitLab host regex class are not `':'`. -/
theorem isHostChar_ne_colon {c : Char} (h : isHostChar c = true) : (c != ':') = true := by
  by_contra hne
  have : c = ':' := by
    simpa [bne_iff_ne] using hne
  subst this
  exact absurd h (by decide)

/-- Characters of the GitLab host regex class are not `'/'`. -/
theorem isHostChar_ne_slash {c : Char} (h : isHostChar c = true) : (c != '/') = true := by
  by_contra hne
  have : c = '/' := by
    simpa [bne_iff_ne] using hne
  subst this
  exact absurd h (by decide)

/-- A string of the shape `a ++ '/' :: proj`, where `proj` is a nonempty
final segment not itself ending in `.git`, does not end in `.git`: either
the last four characters lie inside `proj`, or they straddle the `'/'`,
which `.git` does not contain. -/
theorem endsWith_git_slash (a proj : Str)
    (hpg : endsWith (str ".git") proj = false) :
    endsWith (str ".git") (a ++ '/' :: proj) = false := by
  have hlen : (a ++ '/' :: proj).length = a.length + proj.length + 1 := by
    simp [List.length_append]
    omega
  have h4 : (str ".git").length = 4 := rfl
  unfold endsWith at hpg ⊢
  rw [h4] at hpg ⊢
  by_cases hp4 : 4 ≤ proj.length
  · have hm : (a ++ '/' :: proj).length - 4 = (a ++ ['/']).length + (proj.length - 4) := by
      simp [List.length_append] at hlen ⊢
      omega
    have hsplit : a ++ '/' :: proj = (a ++ ['/']) ++ proj := by simp
    rw [hm, hsplit]
    rw [show ((a ++ ['/']) ++ proj).drop ((a ++ ['/']).length + (proj.length - 4)) =
          proj.drop (proj.length - 4) by
      rw [List.drop_append_eq_append_drop]
      have h1 : (a ++ ['/']).drop ((a ++ ['/']).length + (proj.length - 4)) = [] :=
        List.drop_eq_nil_of_le (by omega)
      rw [h1]
      simp]
    exact hpg
  · have hm : (a ++ '/' :: proj).length - 4 ≤ a.length := by omega
    rw [show (a ++ '/' :: proj).drop ((a ++ '/' :: proj).length - 4) =
          a.drop ((a ++ '/' :: proj).length - 4) ++ '/' :: proj by
      rw [List.drop_append_eq_append_drop]
      have h0 : (a ++ '/' :: proj).length - 4 - a.length = 0 := by omega
      rw [h0, List.drop_zero]]
    by_contra hbeq
    have heq : a.drop ((a ++ '/' :: proj).length - 4) ++ '/' :: proj = str ".git" := by
      have := Bool.not_eq_false _ |>.mp hbeq
      exact beq_iff_eq.mp this
    have hmem : '/' ∈ str ".git" := by
      rw [← heq]
      simp
    exact absurd hmem (by decide)

/-- Stripping `.git` from a string with `.git` appended recovers the
string. -/
theorem stripDotGit_append_git (u : Str) : stripDotGit (u ++ str ".git") = u := by
  have hlen : (u ++ str ".git").length = u.length + 4 := by
    simp [List.length_append]
    rfl
  have hend : endsWith (str ".git") (u ++ str ".git") = true := by
    unfold endsWith
    rw [hlen]
    have h4 : (str ".git").length = 4 := rfl
    rw [h4]
    have : u.length + 4 - 4 = u.length := by omega
    rw [this, List.drop_left]
    exact beq_self_eq_true _
  unfold stripDotGit
  rw [hend, if_pos rfl, hlen]
  have : u.length + 4 - 4 = u.length := by omega
  rw [this, List.take_left]

/-- Stripping `.git` from a string that does not end in `.git` is the
identity. -/
theorem stripDotGit_keep (u : Str) (h : endsWith (str ".git") u = false) :
    stripDotGit u = u := by
  unfold stripDotGit
  rw [h]
  simp

/-- The claim-side `https://host/path` remote-URL shape. -/
def httpsForm (host path : Str) : Str := str "https://" ++ (host ++ '/' :: path)

/-- The claim-side scp-like `git@host:path` remote-URL shape. -/
def gitAtForm (host path : Str) : Str := str "git@" ++ (host ++ ':' :: path)

/-- The claim-side `ssh://git@host/path` remote-URL shape. -/
def sshForm (host path : Str) : Str := str "ssh://git@" ++ (host ++ '/' :: path)

/-- An `https://…` string does not start with `git@` (heads differ). -/
theorem isPre_gitAt_https (X : Str) : isPre (str "git@") (str "https://" ++ X) = false := rfl

/-- An `ssh://git@…` string does not start with `git@`. -/
theorem isPre_gitAt_ssh (X : Str) : isPre (str "git@") (str "ssh://git@" ++ X) = false := rfl

/-- An `https://…` string does not start with `ssh://git@`. -/
theorem isPre_ssh_https (X : Str) : isPre (str "ssh://git@") (str "https://" ++ X) = false := rfl

/-- A `git@…` string does not start with `https://`. -/
theorem isPre_https_gitAt (X : Str) : isPre (str "https://") (str "git@" ++ X) = false := rfl

/-- An `ssh://git@…` string does not start with `https://`. -/
theorem isPre_https_ssh (X : Str) : isPre (str "https://") (str "ssh://git@" ++ X) = false := rfl

/-- A `git@…` string does not start with `ssh://git@`. -/
theorem isPre_ssh_gitAt (X : Str) : isPre (str "ssh://git@") (str "git@" ++ X) = false := rfl

/-- `normGitAt` is the identity on strings that do not start with `git@`. -/
theorem normGitAt_keep (u : Str) (h : isPre (str "git@") u = false) :
    normGitAt u = u := by
  unfold normGitAt
  rw [h]
  simp

/-- `normSsh` is the identity on strings that do not start with
`ssh://git@`. -/
theorem normSsh_keep (u : Str) (h : isPre (str "ssh://git@") u = false) :
    normSsh u = u := by
  unfold normSsh
  rw [h]
  simp

/-- The scp-like rewrite leaves an `https://` URL unchanged and the
`ssh://` rewrite does not fire on it. -/
theorem norm2_httpsForm (host path : Str) :
    normSsh (normGitAt (httpsForm host path)) = httpsForm host path := by
  unfold httpsForm
  rw [normGitAt_keep _ (isPre_gitAt_https _), normSsh_keep _ (isPre_ssh_https _)]

/-- The scp-like `git@host:path` form is rewritten to `https://host/path`
when the host is nonempty and colon-free. -/
theorem norm2_gitAtForm (host path : Str) (hh0 : host ≠ [])
    (hhc : ∀ c ∈ host, (c != ':') = true) :
    normSsh (normGitAt (gitAtForm host path)) = httpsForm host path := by
  unfold gitAtForm normGitAt
  rw [show isPre (str "git@") (str "git@" ++ (host ++ ':' :: path)) = true from
    isPre_append_self (str "git@") (host ++ ':' :: path)]
  simp only [if_true]
  rw [show (str "git@" ++ (host ++ ':' :: path)).drop 4 = host ++ ':' :: path from
    List.drop_left (str "git@") (host ++ ':' :: path)]
  rw [takeWhile_append_stop host path hhc (by decide),
      dropWhile_append_stop host path hhc (by decide)]
  simp only [List.tail_cons]
  rw [if_neg (by simp [hh0])]
  have hres : str "https://" ++ host ++ '/' :: path = httpsForm host path := by
    unfold httpsForm
    rw [List.append_assoc]
  rw [hres, normSsh_keep _ (by unfold httpsForm; exact isPre_ssh_https _)]

/-- The `ssh://git@host/path` form is rewritten to `https://host/path`. -/
theorem norm2_sshForm (host path : Str) :
    normSsh (normGitAt (sshForm host path)) = httpsForm host path := by
  unfold sshForm
  rw [normGitAt_keep _ (isPre_gitAt_ssh _)]
  unfold normSsh httpsForm
  rw [show isPre (str "ssh://git@") (str "ssh://git@" ++ (host ++ '/' :: path)) = true from
    isPre_append_self (str "ssh://git@") (host ++ '/' :: path)]
  simp only [if_true]
  rw [show (str "ssh://git@" ++ (host ++ '/' :: path)).drop 10 = host ++ '/' :: path from
    List.drop_left (str "ssh://git@") (host ++ '/' :: path)]

/-- Evaluation of one host pattern on `host ++ term :: path` when no host
character equals the terminator. -/
theorem hostPat_eval (term : Char) (host path : Str)
    (hterm : ∀ c ∈ host, (c != term) = true) :
    hostPat term (host ++ term :: path) =
      (host.all isHostChar && isInfixStr (str "gitlab") host) := by
  unfold hostPat
  rw [takeWhile_append_stop host path hterm (by simp),
      dropWhile_append_stop host path hterm (by simp)]
  simp

/-- `parseGitLabUrl` depends on its argument only through
`normalizeUrl`. -/
theorem parseGitLabUrl_congr (u v : Str) (h : normalizeUrl u = normalizeUrl v) :
    parseGitLabUrl u = parseGitLabUrl v := by
  unfold parseGitLabUrl
  rw [h]

/-- `isGitLabRepository` depends on its argument only through
`stripDotGit`. -/
theorem isGitLabRepository_congr (u v : Str) (h : stripDotGit u = stripDotGit v) :
    isGitLabRepository u = isGitLabRepository v := by
  unfold isGitLabRepository
  rw [h]

/-- On a clean `https://host/path` URL, the GitLab test reduces to the
`gitlab`-in-host check. -/
theorem isGitLab_httpsForm (host path : Str)
    (hhc : ∀ c ∈ host, isHostChar c = true)
    (hg : endsWith (str ".git") (httpsForm host path) = false) :
    isGitLabRepository (httpsForm host path) = isInfixStr (str "gitlab") host := by
  unfold isGitLabRepository
  rw [stripDotGit_keep _ hg]
  unfold httpsForm
  dsimp only
  rw [show isPre (str "https://") (str "https://" ++ (host ++ '/' :: path)) = true from
    isPre_append_self (str "https://") (host ++ '/' :: path)]
  rw [isPre_gitAt_https, isPre_ssh_https]
  rw [show (str "https://" ++ (host ++ '/' :: path)).drop 8 = host ++ '/' :: path from
    List.drop_left (str "https://") (host ++ '/' :: path)]
  rw [hostPat_eval '/' host path (fun c hc => isHostChar_ne_slash (hhc c hc))]
  rw [List.all_eq_true.mpr hhc]
  simp

/-- On a clean `git@host:path` URL, the GitLab test reduces to the
`gitlab`-in-host check. -/
theorem isGitLab_gitAtForm (host path : Str)
    (hhc : ∀ c ∈ host, isHostChar c = true)
    (hg : endsWith (str ".git") (gitAtForm host path) = false) :
    isGitLabRepository (gitAtForm host path) = isInfixStr (str "gitlab") host := by
  unfold isGitLabRepository
  rw [stripDotGit_keep _ hg]
  unfold gitAtForm
  dsimp only
  rw [show isPre (str "git@") (str "git@" ++ (host ++ ':' :: path)) = true from
    isPre_append_self (str "git@") (host ++ ':' :: path)]
  rw [isPre_https_gitAt, isPre_ssh_gitAt]
  rw [show (str "git@" ++ (host ++ ':' :: path)).drop 4 = host ++ ':' :: path from
    List.drop_left (str "git@") (host ++ ':' :: path)]
  rw [hostPat_eval ':' host path (fun c hc => isHostChar_ne_colon (hhc c hc))]
  rw [List.all_eq_true.mpr hhc]
  simp

/-- On a clean `ssh://git@host/path` URL, the GitLab test reduces to the
`gitlab`-in-host check. -/
theorem isGitLab_sshForm (host path : Str)
    (hhc : ∀ c ∈ host, isHostChar c = true)
    (hg : endsWith (str ".git") (sshForm host path) = false) :
    isGitLabRepository (sshForm host path) = isInfixStr (str "gitlab") host := by
  unfold isGitLabRepository
  rw [stripDotGit_keep _ hg]
  unfold sshForm
  dsimp only
  rw [show isPre (str "ssh://git@") (str "ssh://git@" ++ (host ++ '/' :: path)) = true from
    isPre_append_self (str "ssh://git@") (host ++ '/' :: path)]
  rw [isPre_https_ssh, isPre_gitAt_ssh]
  rw [show (str "ssh://git@" ++ (host ++ '/' :: path)).drop 10 = host ++ '/' :: path from
    List.drop_left (str "ssh://git@") (host ++ '/' :: path)]
  rw [hostPat_eval '/' host path (fun c hc => isHostChar_ne_slash (hhc c hc))]
  rw [List.all_eq_true.mpr hhc]
  simp

/-- C2: for equivalent remote URLs in the three accepted shapes
(`https://host/ns/proj`, `git@host:ns/proj`, `ssh://git@host/ns/proj`),
with or without a trailing `.git`, identity resolution — the GitLab-URL
validation `isGitLabRepository` together with the decomposition
`parseGitLabUrl` — gives identical results, for any host over the GitLab
host-pattern character class and any project segment not itself ending in
`.git`. -/
theorem resolveIdentity_shape_equivalence (host ns proj : Str)
    (hh0 : host ≠ []) (hhc : ∀ c ∈ host, isHostChar c = true)
    (hpg : endsWith (str ".git") proj = false) :
    (parseGitLabUrl (gitAtForm host (ns ++ '/' :: proj)) =
       parseGitLabUrl (httpsForm host (ns ++ '/' :: proj))) ∧
    (parseGitLabUrl (sshForm host (ns ++ '/' :: proj)) =
       parseGitLabUrl (httpsForm host (ns ++ '/' :: proj))) ∧
    (parseGitLabUrl (httpsForm host (ns ++ '/' :: proj) ++ str ".git") =
       parseGitLabUrl (httpsForm host (ns ++ '/' :: proj))) ∧
    (parseGitLabUrl (gitAtForm host (ns ++ '/' :: proj) ++ str ".git") =
       parseGitLabUrl (httpsForm host (ns ++ '/' :: proj))) ∧
    (parseGitLabUrl (sshForm host (ns ++ '/' :: proj) ++ str ".git") =
       parseGitLabUrl (httpsForm host (ns ++ '/' :: proj))) ∧
    (isGitLabRepository (gitAtForm host (ns ++ '/' :: proj)) =
       isGitLabRepository (httpsForm host (ns ++ '/' :: proj))) ∧
    (isGitLabRepository (sshForm host (ns ++ '/' :: proj)) =
       isGitLabRepository (httpsForm host (ns ++ '/' :: proj))) ∧
    (isGitLabRepository (httpsForm host (ns ++ '/' :: proj) ++ str ".git") =
       isGitLabRepository (httpsForm host (ns ++ '/' :: proj))) ∧
    (isGitLabRepository (gitAtForm host (ns ++ '/' :: proj) ++ str ".git") =
       isGitLabRepository (httpsForm host (ns ++ '/' :: proj))) ∧
    (isGitLabRepository (sshForm host (ns ++ '/' :: proj) ++ str ".git") =
       isGitLabRepository (httpsForm host (ns ++ '/' :: proj))) := by
  set path := ns ++ '/' :: proj with hpath
  have hgh : endsWith (str ".git") (httpsForm host path) = false := by
    have h := endsWith_git_slash (str "https://" ++ (host ++ '/' :: ns)) proj hpg
    unfold httpsForm
    rw [hpath]
    simpa [List.append_assoc] using h
  have hgg : endsWith (str ".git") (gitAtForm host path) = false := by
    have h := endsWith_git_slash (str "git@" ++ (host ++ ':' :: ns)) proj hpg
    unfold gitAtForm
    rw [hpath]
    simpa [List.append_assoc] using h
  have hgs : endsWith (str ".git") (sshForm host path) = false := by
    have h := endsWith_git_slash (str "ssh://git@" ++ (host ++ '/' :: ns)) proj hpg
    unfold sshForm
    rw [hpath]
    simpa [List.append_assoc] using h
  have hcolon : ∀ c ∈ host, (c != ':') = true :=
    fun c hc => isHostChar_ne_colon (hhc c hc)
  have nrmH : normalizeUrl (httpsForm host path) = httpsForm host path := by
    unfold normalizeUrl
    rw [stripDotGit_keep _ hgh, norm2_httpsForm]
  have nrmG : normalizeUrl (gitAtForm host path) = httpsForm host path := by
    unfold normalizeUrl
    rw [stripDotGit_keep _ hgg, norm2_gitAtForm host path hh0 hcolon]
  have nrmS : normalizeUrl (sshForm host path) = httpsForm host path := by
    unfold normalizeUrl
    rw [stripDotGit_keep _ hgs, norm2_sshForm]
  have nrmHg : normalizeUrl (httpsForm host path ++ str ".git") = httpsForm host path := by
    unfold normalizeUrl
    rw [stripDotGit_append_git, norm2_httpsForm]
  have nrmGg : normalizeUrl (gitAtForm host path ++ str ".git") = httpsForm host path := by
    unfold normalizeUrl
    rw [stripDotGit_append_git, norm2_gitAtForm host path hh0 hcolon]
  have nrmSg : normalizeUrl (sshForm host path ++ str ".git") = httpsForm host path := by
    unfold normalizeUrl
    rw [stripDotGit_append_git, norm2_sshForm]
  have gH := isGitLab_httpsForm host path hhc hgh
  have gG := isGitLab_gitAtForm host path hhc hgg
  have gS := isGitLab_sshForm host path hhc hgs
  have sH : stripDotGit (httpsForm host path ++ str ".git") = stripDotGit (httpsForm host path) := by
    rw [stripDotGit_append_git, stripDotGit_keep _ hgh]
  have sG : stripDotGit (gitAtForm host path ++ str ".git") = stripDotGit (gitAtForm host path) := by
    rw [stripDotGit_append_git, stripDotGit_keep _ hgg]
  have sS : stripDotGit (sshForm host path ++ str ".git") = stripDotGit (sshForm host path) := by
    rw [stripDotGit_append_git, stripDotGit_keep _ hgs]
  refine ⟨?_, ?_, ?_, ?_, ?_, ?_, ?_, ?_, ?_, ?_⟩
  · exact parseGitLabUrl_congr _ _ (by rw [nrmG, nrmH])
  · exact parseGitLabUrl_congr _ _ (by rw [nrmS, nrmH])
  · exact parseGitLabUrl_congr _ _ (by rw [nrmHg, nrmH])
  · exact parseGitLabUrl_congr _ _ (by rw [nrmGg, nrmH])
  · exact parseGitLabUrl_congr _ _ (by rw [nrmSg, nrmH])
  · rw [gG, gH]
  · rw [gS, gH]
  · rw [isGitLabRepository_congr _ _ sH]
  · rw [isGitLabRepository_congr _ _ sG, gG, gH]
  · rw [isGitLabRepository_congr _ _ sS, gS, gH]

/-- Witness for C2 at a concrete URL (`gitlab.com`, namespace `grp`,
project `proj`): the scp-like form resolves identically to the https
form, and the common value is the expected identity. -/
theorem resolveIdentity_shape_equivalence_witness :
    parseGitLabUrl (gitAtForm (str "gitlab.com") (str "grp" ++ '/' :: str "proj")) =
      parseGitLabUrl (httpsForm (str "gitlab.com") (str "grp" ++ '/' :: str "proj")) ∧
    parseGitLabUrl (httpsForm (str "gitlab.com") (str "grp" ++ '/' :: str "proj")) =
      some { host := str "gitlab.com", nspace := str "grp", project := str "proj",
             projectId := str "grp%2Fproj" } :=
  ⟨(resolveIdentity_shape_equivalence (str "gitlab.com") (str "grp") (str "proj")
      (by decide) (by decide) (by decide)).1,
   by decide⟩

/-- Joining at least two segments equals joining all but the last,
followed by `'/'` and the last segment. -/
theorem joinSlash_split (l : List Str) : 2 ≤ l.length →
    joinSlash l = joinSlash l.dropLast ++ '/' :: l.getLastD [] := by
  induction l with
  | nil => intro h; simp at h
  | cons a l' ih =>
    intro h
    match l', ih with
    | [], _ => simp at h
    | [b], _ => simp [joinSlash, List.dropLast, List.getLastD]
    | b :: c :: r, ih =>
      have h2 : 2 ≤ (b :: c :: r).length := by simp
      have hstep : joinSlash (a :: b :: c :: r) = a ++ '/' :: joinSlash (b :: c :: r) := rfl
      have hlast : (a :: b :: c :: r).getLastD [] = (b :: c :: r).getLastD [] := rfl
      rw [hstep, ih h2, hlast]
      have hdl : (a :: b :: c :: r).dropLast = a :: (b :: c :: r).dropLast := rfl
      rw [hdl]
      have hdl2 : (b :: c :: r).dropLast = b :: (c :: r).dropLast := rfl
      rw [hdl2]
      have hstep2 : joinSlash (a :: b :: (c :: r).dropLast) =
          a ++ '/' :: joinSlash (b :: (c :: r).dropLast) := rfl
      rw [hstep2]
      simp [List.append_assoc]

/-- C3: over the URL-parse of the normalised remote, `parseGitLabUrl`
filters empty segments of the pathname split on `/`, succeeds exactly
when at least two segments remain, takes the last segment as the project
name and the preceding ones joined by `/` as the namespace (which may
contain nested groups), and sets the encoded path identifier to the
percent-encoding of `namespace ++ "/" ++ projectName`; with fewer than
two segments resolution fails. -/
theorem parseGitLabUrl_decomposition (url : Str) :
    (urlParse (normalizeUrl url) = none → parseGitLabUrl url = none) ∧
    (∀ host pathname, urlParse (normalizeUrl url) = some (host, pathname) →
      (2 ≤ ((splitOnChar '/' pathname).filter (fun s => !s.isEmpty)).length →
        parseGitLabUrl url = some
          { host := host
            nspace := joinSlash ((splitOnChar '/' pathname).filter (fun s => !s.isEmpty)).dropLast
            project := ((splitOnChar '/' pathname).filter (fun s => !s.isEmpty)).getLastD []
            projectId := encodeURIComponent
              (joinSlash ((splitOnChar '/' pathname).filter (fun s => !s.isEmpty)).dropLast ++
                '/' :: ((splitOnChar '/' pathname).filter (fun s => !s.isEmpty)).getLastD []) }) ∧
      (((splitOnChar '/' pathname).filter (fun s => !s.isEmpty)).length < 2 →
        parseGitLabUrl url = none)) := by
  constructor
  · intro h
    unfold parseGitLabUrl
    rw [h]
  · intro host pathname h
    constructor
    · intro hlen
      unfold parseGitLabUrl
      rw [h]
      simp only [if_pos hlen]
      rw [← joinSlash_split _ hlen]
    · intro hlen
      unfold parseGitLabUrl
      rw [h]
      simp only
      rw [if_neg (by omega)]

/-- Witness for C3 at the concrete nested-group URL
`https://gitlab.com/group/subgroup/project`. -/
theorem parseGitLabUrl_decomposition_witness :
    parseGitLabUrl (str "https://gitlab.com/group/subgroup/project") =
      some { host := str "gitlab.com", nspace := str "group/subgroup",
             project := str "project",
             projectId := str "group%2Fsubgroup%2Fproject" } := by
  have h := (parseGitLabUrl_decomposition (str "https://gitlab.com/group/subgroup/project")).2
    (str "gitlab.com") (str "/group/subgroup/project") (by decide)
  have h2 := h.1 (by decide)
  rw [h2]
  decide

/-- A fully successful prologue resolves to the parsed identity. -/
theorem resolveProject_ok (env : Env) (root : DirPath) (u : Str) (info : GitLabInfo) (tok : Str)
    (hroot : findGitRepository env.fs env.projectPath = some root)
    (hurl : env.remoteUrl = Except.ok u)
    (hgl : isGitLabRepository u = true)
    (hparse : parseGitLabUrl u = some info)
    (htok : env.token = some tok) :
    resolveProject env = .ok info := by
  simp [resolveProject, hroot, hurl, hgl, hparse, htok]

/-- A prologue that reaches the token check with no token set fails with
the missing-credential message. -/
theorem resolveProject_noToken (env : Env) (root : DirPath) (u : Str) (info : GitLabInfo)
    (hroot : findGitRepository env.fs env.projectPath = some root)
    (hurl : env.remoteUrl = Except.ok u)
    (hgl : isGitLabRepository u = true)
    (hparse : parseGitLabUrl u = some info)
    (htok : env.token = none) :
    resolveProject env = .error msgNoToken := by
  simp [resolveProject, hroot, hurl, hgl, hparse, htok]

/-- C9: when the credential is absent but the prologue otherwise
succeeds, every operation that would reach the CI backend fails with the
missing-credential message and issues zero HTTP requests: the token check
(src/bin/gitlab-mcp-server.js:131-135 and its copies) precedes every
`fetch`. -/
theorem missingCredential_before_network (env : Env) (b : Backend)
    (root : DirPath) (u : Str) (info : GitLabInfo)
    (hroot : findGitRepository env.fs env.projectPath = some root)
    (hurl : env.remoteUrl = Except.ok u)
    (hgl : isGitLabRepository u = true)
    (hparse : parseGitLabUrl u = some info)
    (htok : env.token = none) :
    getLatestPipeline env b = (opFail msgNoToken, []) ∧
    (∀ pid, getPipelineDetails env b pid = (opFail msgNoToken, [])) ∧
    (∀ jid, getJobDetails env b jid = (opFail msgNoToken, [])) ∧
    (∀ jid, getJobLogs env b jid = (opFail msgNoToken, [])) ∧
    (∀ jid, getJobArtifacts env b jid = (opFail msgNoToken, [])) ∧
    (∀ jid dl, downloadJobArtifacts env b jid dl = (opFail msgNoToken, [])) ∧
    (∀ pid dl, downloadPipelineArtifacts env b pid dl = (opFail msgNoToken, [])) := by
  have hres := resolveProject_noToken env root u info hroot hurl hgl hparse htok
  refine ⟨?_, ?_, ?_, ?_, ?_, ?_, ?_⟩
  · unfold getLatestPipeline; rw [hres]
  · intro pid; unfold getPipelineDetails; rw [hres]
  · intro jid; unfold getJobDetails; rw [hres]
  · intro jid; unfold getJobLogs; rw [hres]
  · intro jid; unfold getJobArtifacts; rw [hres]
  · intro jid dl; unfold downloadJobArtifacts; rw [hres]
  · intro pid dl; unfold downloadPipelineArtifacts; rw [hres]

/-- A concrete backend for sample runs. -/
def sampleBackend : Backend :=
  { listPipelines := .ok [samplePipeline 7]
    getPipeline := fun i => .ok (samplePipeline i)
    listJobs := fun _ => .ok [sampleJob 1, sampleJob 2]
    listPipelineArtifacts := fun _ => .ok [str "art"]
    getTrace := fun _ => .ok (str "trace")
    getJob := fun i => .ok (sampleJob i)
    jobArtifacts := fun _ => .ok [1, 2, 3] }

/-- Witness for C9 in the concrete token-less environment. -/
theorem missingCredential_before_network_witness :
    getLatestPipeline sampleEnvNoToken sampleBackend = (opFail msgNoToken, []) ∧
    getPipelineDetails sampleEnvNoToken sampleBackend none = (opFail msgNoToken, []) ∧
    downloadPipelineArtifacts sampleEnvNoToken sampleBackend none none =
      (opFail msgNoToken, []) := by
  have h := missingCredential_before_network sampleEnvNoToken sampleBackend
    [str "repo"] (str "https://gitlab.com/grp/proj")
    { host := str "gitlab.com", nspace := str "grp", project := str "proj",
      projectId := str "grp%2Fproj" }
    (by decide) rfl (by decide) (by decide) rfl
  exact ⟨h.1, h.2.1 none, h.2.2.2.2.2.2 none none⟩

/-- C6: with the prologue succeeding and no `pipelineId` argument, a
successful pipeline-list query returning the empty list makes both
`getPipelineDetails` and `downloadPipelineArtifacts` return
`{success: true, data: null}` after exactly the one list request — while
a failed list query makes both fail, so the two outcomes are distinct. -/
theorem emptyPipelineList_success_null (env : Env) (b : Backend)
    (root : DirPath) (u : Str) (info : GitLabInfo) (tok : Str)
    (hroot : findGitRepository env.fs env.projectPath = some root)
    (hurl : env.remoteUrl = Except.ok u)
    (hgl : isGitLabRepository u = true)
    (hparse : parseGitLabUrl u = some info)
    (htok : env.token = some tok) :
    (b.listPipelines = .ok [] →
      getPipelineDetails env b none = (⟨true, msgNoPipelines, none⟩, [.listPipelines]) ∧
      ∀ dl, downloadPipelineArtifacts env b none dl =
        (⟨true, msgNoPipelines, none⟩, [.listPipelines])) ∧
    (∀ s body, b.listPipelines = .httpError s body →
      getPipelineDetails env b none = (opFail (msgLatestErr s body), [.listPipelines]) ∧
      ∀ dl, downloadPipelineArtifacts env b none dl =
        (opFail (msgLatestErr s body), [.listPipelines])) := by
  have hres := resolveProject_ok env root u info tok hroot hurl hgl hparse htok
  constructor
  · intro hlist
    constructor
    · unfold getPipelineDetails
      rw [hres]
      simp [resolvePipelineId, hlist]
    · intro dl
      unfold downloadPipelineArtifacts
      rw [hres]
      simp [resolvePipelineId, hlist]
  · intro s body hlist
    constructor
    · unfold getPipelineDetails
      rw [hres]
      simp [resolvePipelineId, hlist, opFail]
    · intro dl
      unfold downloadPipelineArtifacts
      rw [hres]
      simp [resolvePipelineId, hlist, opFail]

/-- `sampleBackend` with an empty pipeline list. -/
def sampleBackendEmpty : Backend :=
  { sampleBackend with listPipelines := .ok [] }

/-- Witness for C6 in a concrete environment whose backend has no
pipelines. -/
theorem emptyPipelineList_success_null_witness :
    getPipelineDetails sampleEnv sampleBackendEmpty none =
      (⟨true, msgNoPipelines, none⟩, [.listPipelines]) ∧
    downloadPipelineArtifacts sampleEnv sampleBackendEmpty none none =
      (⟨true, msgNoPipelines, none⟩, [.listPipelines]) := by
  have h := emptyPipelineList_success_null sampleEnv sampleBackendEmpty
    [str "repo"] (str "https://gitlab.com/grp/proj")
    { host := str "gitlab.com", nspace := str "grp", project := str "proj",
      projectId := str "grp%2Fproj" }
    (str "tok") (by decide) rfl (by decide) (by decide) rfl
  exact ⟨(h.1 rfl).1, (h.1 rfl).2 none⟩

/-- C10: after a successful prologue and with an explicit pipeline id, a
job-listing response with a non-success HTTP status makes
`downloadPipelineArtifacts` fail outright — null data, and no
`/jobs/:id/artifacts` download request is ever issued — while
`getPipelineDetails`, on the very same backend, substitutes an empty job
list and still succeeds. -/
theorem downloadPipeline_jobListing_failure (env : Env) (b : Backend)
    (root : DirPath) (u : Str) (info : GitLabInfo) (tok : Str)
    (P s : Nat) (body : Str)
    (hroot : findGitRepository env.fs env.projectPath = some root)
    (hurl : env.remoteUrl = Except.ok u)
    (hgl : isGitLabRepository u = true)
    (hparse : parseGitLabUrl u = some info)
    (htok : env.token = some tok)
    (hjobs : b.listJobs P = .httpError s body) :
    (∀ dl, downloadPipelineArtifacts env b (some P) dl =
       (opFail (msgPipelineJobsErr s body), [.listJobs P])) ∧
    (∀ dl j, Req.jobArtifacts j ∉ (downloadPipelineArtifacts env b (some P) dl).2) ∧
    (∀ pl arts, b.getPipeline P = .ok pl → b.listPipelineArtifacts P = .ok arts →
       getPipelineDetails env b (some P) =
         (opOk msgAggSuccess ⟨⟨pl, mkProject info⟩, [], arts⟩,
          [.getPipeline P, .listJobs P, .listPipelineArtifacts P])) := by
  have hres := resolveProject_ok env root u info tok hroot hurl hgl hparse htok
  have hdl : ∀ dl, downloadPipelineArtifacts env b (some P) dl =
      (opFail (msgPipelineJobsErr s body), [.listJobs P]) := by
    intro dl
    unfold downloadPipelineArtifacts
    rw [hres]
    simp [resolvePipelineId, hjobs]
  refine ⟨hdl, ?_, ?_⟩
  · intro dl j
    rw [hdl dl]
    simp
  · intro pl arts hpl harts
    unfold getPipelineDetails
    rw [hres]
    simp [resolvePipelineId, hpl, hjobs, harts, softList]

/-- `sampleBackend` whose job listing answers HTTP 500. -/
def sampleBackendJobsErr : Backend :=
  { sampleBackend with listJobs := fun _ => .httpError 500 (str "err") }

/-- Witness for C10: same backend, the download operation fails while the
aggregation succeeds with an empty job list. -/
theorem downloadPipeline_jobListing_failure_witness :
    (downloadPipelineArtifacts sampleEnv sampleBackendJobsErr (some 7) none).1.success = false ∧
    Req.jobArtifacts 1 ∉ (downloadPipelineArtifacts sampleEnv sampleBackendJobsErr (some 7) none).2 ∧
    (getPipelineDetails sampleEnv sampleBackendJobsErr (some 7)).1.success = true := by
  have h := downloadPipeline_jobListing_failure sampleEnv sampleBackendJobsErr
    [str "repo"] (str "https://gitlab.com/grp/proj")
    { host := str "gitlab.com", nspace := str "grp", project := str "proj",
      projectId := str "grp%2Fproj" }
    (str "tok") 7 500 (str "err")
    (by decide) rfl (by decide) (by decide) rfl rfl
  refine ⟨?_, h.2.1 none 1, ?_⟩
  · rw [h.1 none]; rfl
  · rw [h.2.2 (samplePipeline 7) [str "art"] rfl rfl]; rfl

/-- C7 (amended): after the pipeline resource is fetched successfully, a
job-listing or artifact-metadata response with a *non-success HTTP
status* is replaced by an empty list and the aggregation still succeeds;
but a *thrown* (transport-level) failure of either call escapes to the
outer catch and the whole operation fails. -/
theorem aggregation_partial_tolerance (env : Env) (b : Backend)
    (root : DirPath) (u : Str) (info : GitLabInfo) (tok : Str) (P : Nat) (pl : Pipeline)
    (hroot : findGitRepository env.fs env.projectPath = some root)
    (hurl : env.remoteUrl = Except.ok u)
    (hgl : isGitLabRepository u = true)
    (hparse : parseGitLabUrl u = some info)
    (htok : env.token = some tok)
    (hpl : b.getPipeline P = .ok pl) :
    (∀ s m arts, b.listJobs P = .httpError s m → b.listPipelineArtifacts P = .ok arts →
       getPipelineDetails env b (some P) =
         (opOk msgAggSuccess ⟨⟨pl, mkProject info⟩, [], arts⟩,
          [.getPipeline P, .listJobs P, .listPipelineArtifacts P])) ∧
    (∀ js s m, b.listJobs P = .ok js → b.listPipelineArtifacts P = .httpError s m →
       getPipelineDetails env b (some P) =
         (opOk msgAggSuccess ⟨⟨pl, mkProject info⟩, js.map (attachTrace b), []⟩,
          [.getPipeline P, .listJobs P, .listPipelineArtifacts P] ++
            js.map (fun j => .getTrace j.id))) ∧
    (∀ m, b.listJobs P = .netError m →
       getPipelineDetails env b (some P) = (opFail m, [.getPipeline P, .listJobs P])) ∧
    (∀ js m, b.listJobs P = .ok js → b.listPipelineArtifacts P = .netError m →
       getPipelineDetails env b (some P) =
         (opFail m, [.getPipeline P, .listJobs P, .listPipelineArtifacts P])) := by
  have hres := resolveProject_ok env root u info tok hroot hurl hgl hparse htok
  refine ⟨?_, ?_, ?_, ?_⟩
  · intro s m arts hj ha
    unfold getPipelineDetails
    rw [hres]
    simp [resolvePipelineId, hpl, hj, ha, softList]
  · intro js s m hj ha
    unfold getPipelineDetails
    rw [hres]
    simp [resolvePipelineId, hpl, hj, ha, softList]
  · intro m hj
    unfold getPipelineDetails
    rw [hres]
    simp [resolvePipelineId, hpl, hj, softList]
  · intro js m hj ha
    unfold getPipelineDetails
    rw [hres]
    simp [resolvePipelineId, hpl, hj, ha, softList]

/-- Witness for C7's amended theorem: an HTTP-level job-listing failure
still yields a successful aggregation with an empty job list. -/
theorem aggregation_partial_tolerance_witness :
    getPipelineDetails sampleEnv sampleBackendJobsErr (some 7) =
      (opOk msgAggSuccess
        ⟨⟨samplePipeline 7, ⟨str "gitlab.com", str "grp", str "proj"⟩⟩, [], [str "art"]⟩,
       [.getPipeline 7, .listJobs 7, .listPipelineArtifacts 7]) := by
  have h := aggregation_partial_tolerance sampleEnv sampleBackendJobsErr
    [str "repo"] (str "https://gitlab.com/grp/proj")
    { host := str "gitlab.com", nspace := str "grp", project := str "proj",
      projectId := str "grp%2Fproj" }
    (str "tok") 7 (samplePipeline 7)
    (by decide) rfl (by decide) (by decide) rfl rfl
  exact h.1 500 (str "err") [str "art"] rfl rfl

/-- `sampleBackend` whose job-listing fetch throws (network error). -/
def sampleBackendJobsNet : Backend :=
  { sampleBackend with listJobs := fun _ => .netError (str "socket hang up") }

/-- C7 counterexample: the pipeline resource itself is fetched
successfully, the job-listing call fails (here by throwing, one of the
ways a `fetch` call fails), yet the aggregation does *not* substitute an
empty list and succeed — it returns `success = false`, refuting the
claim that a failing job-listing call never aborts the aggregation. -/
theorem jobListing_thrown_aborts :
    sampleBackendJobsNet.getPipeline 7 = .ok (samplePipeline 7) ∧
    sampleBackendJobsNet.listJobs 7 = .netError (str "socket hang up") ∧
    (getPipelineDetails sampleEnv sampleBackendJobsNet (some 7)).1.success = false ∧
    (getPipelineDetails sampleEnv sampleBackendJobsNet (some 7)).1.data = none := by
  decide

/-- C1 (amended): once the pipeline, job listing and artifact metadata
are fetched, the aggregation *always* succeeds, whatever each job's trace
fetch does; each job's entry depends only on its own trace fetch — a
thrown fetch attaches the diagnostic placeholder, a non-ok response
leaves the trace as the empty string, an ok response attaches the body —
and one trace request is issued per job. -/
theorem traceFetch_fault_isolation (env : Env) (b : Backend)
    (root : DirPath) (u : Str) (info : GitLabInfo) (tok : Str)
    (P : Nat) (pl : Pipeline) (js : List Job) (arts : List Artifact)
    (hroot : findGitRepository env.fs env.projectPath = some root)
    (hurl : env.remoteUrl = Except.ok u)
    (hgl : isGitLabRepository u = true)
    (hparse : parseGitLabUrl u = some info)
    (htok : env.token = some tok)
    (hpl : b.getPipeline P = .ok pl)
    (hjobs : b.listJobs P = .ok js)
    (harts : b.listPipelineArtifacts P = .ok arts) :
    getPipelineDetails env b (some P) =
      (opOk msgAggSuccess ⟨⟨pl, mkProject info⟩, js.map (attachTrace b), arts⟩,
       [.getPipeline P, .listJobs P, .listPipelineArtifacts P] ++
         js.map (fun j => .getTrace j.id)) ∧
    (∀ j ∈ js, ∀ t, b.getTrace j.id = .ok t → attachTrace b j = ⟨j, t⟩) ∧
    (∀ j ∈ js, ∀ s m, b.getTrace j.id = .httpError s m → attachTrace b j = ⟨j, []⟩) ∧
    (∀ j ∈ js, ∀ m, b.getTrace j.id = .netError m → attachTrace b j = ⟨j, traceErrMsg m⟩) := by
  have hres := resolveProject_ok env root u info tok hroot hurl hgl hparse htok
  refine ⟨?_, ?_, ?_, ?_⟩
  · unfold getPipelineDetails
    rw [hres]
    simp [resolvePipelineId, hpl, hjobs, harts, softList]
  · intro j _ t ht
    unfold attachTrace
    rw [ht]
  · intro j _ s m ht
    unfold attachTrace
    rw [ht]
  · intro j _ m ht
    unfold attachTrace
    rw [ht]

/-- A backend with three jobs whose second job's trace fetch throws while
the other two succeed. -/
def sampleBackendTraceNet : Backend :=
  { sampleBackend with
    listJobs := fun _ => .ok [sampleJob 1, sampleJob 2, sampleJob 3]
    getTrace := fun i => if i = 2 then .netError (str "timeout") else .ok (str "log ok") }

/-- Witness for C1's amended theorem: job 2's thrown trace fetch yields
the diagnostic placeholder, jobs 1 and 3 get their logs, and the
aggregation succeeds. -/
theorem traceFetch_fault_isolation_witness :
    getPipelineDetails sampleEnv sampleBackendTraceNet (some 7) =
      (opOk msgAggSuccess
        ⟨⟨samplePipeline 7, ⟨str "gitlab.com", str "grp", str "proj"⟩⟩,
         [⟨sampleJob 1, str "log ok"⟩, ⟨sampleJob 2, traceErrMsg (str "timeout")⟩,
          ⟨sampleJob 3, str "log ok"⟩], [str "art"]⟩,
       [.getPipeline 7, .listJobs 7, .listPipelineArtifacts 7,
        .getTrace 1, .getTrace 2, .getTrace 3]) := by
  have h := traceFetch_fault_isolation sampleEnv sampleBackendTraceNet
    [str "repo"] (str "https://gitlab.com/grp/proj")
    { host := str "gitlab.com", nspace := str "grp", project := str "proj",
      projectId := str "grp%2Fproj" }
    (str "tok") 7 (samplePipeline 7) [sampleJob 1, sampleJob 2, sampleJob 3] [str "art"]
    (by decide) rfl (by decide) (by decide) rfl rfl rfl rfl
  rw [h.1]
  decide

/-- A backend with three jobs whose second job's trace fetch returns a
non-success HTTP status while the other two succeed. -/
def sampleBackendTraceHttp : Backend :=
  { sampleBackend with
    listJobs := fun _ => .ok [sampleJob 1, sampleJob 2, sampleJob 3]
    getTrace := fun i => if i = 2 then .httpError 500 (str "ise") else .ok (str "log ok") }

/-- C1 counterexample: job 2's trace fetch fails (non-success HTTP
status), the other jobs' traces attach normally and the aggregation still
succeeds — but the failed job's `trace` field is the *empty string*, not
a diagnostic placeholder string (every diagnostic placeholder is
nonempty), refuting the claim that any failed trace fetch leaves a
diagnostic placeholder in the `trace` field. -/
theorem traceFetch_httpError_no_placeholder :
    sampleBackendTraceHttp.getTrace 2 = .httpError 500 (str "ise") ∧
    (getPipelineDetails sampleEnv sampleBackendTraceHttp (some 7)).1.success = true ∧
    (getPipelineDetails sampleEnv sampleBackendTraceHttp (some 7)).1.data =
      some ⟨⟨samplePipeline 7, ⟨str "gitlab.com", str "grp", str "proj"⟩⟩,
        [⟨sampleJob 1, str "log ok"⟩, ⟨sampleJob 2, []⟩, ⟨sampleJob 3, str "log ok"⟩],
        [str "art"]⟩ ∧
    (∀ m : Str, ([] : Str) ≠ traceErrMsg m) := by
  refine ⟨by decide, by decide, by decide, ?_⟩
  intro m h
  have hl : (0 : Nat) = (str "Ошибка при получении логов: ").length + m.length := by
    simpa [traceErrMsg, List.length_append] using congrArg List.length h
  have hne : (str "Ошибка при получении логов: ").length ≠ 0 := by decide
  omega

/-- A download outcome always carries the id of its job. -/
theorem downloadOne_jobId (b : Backend) (j : Job) : (downloadOne b j).jobId = j.id := by
  unfold downloadOne
  rcases h : b.jobArtifacts j.id <;> rfl

/-- A download outcome succeeds exactly when the archive fetch was ok. -/
theorem downloadOne_success (b : Backend) (j : Job) :
    (downloadOne b j).success = true ↔ ∃ buf, b.jobArtifacts j.id = .ok buf := by
  unfold downloadOne
  rcases h : b.jobArtifacts j.id with buf | ⟨s, body⟩ | m
  · exact ⟨fun _ => ⟨buf, rfl⟩, fun _ => rfl⟩
  · exact ⟨fun hx => absurd hx Bool.false_ne_true, fun ⟨b1, hb⟩ => nomatch hb⟩
  · exact ⟨fun hx => absurd hx Bool.false_ne_true, fun ⟨b1, hb⟩ => nomatch hb⟩

/-- A failed download outcome carries an error description. -/
theorem downloadOne_error_isSome (b : Backend) (j : Job)
    (h : ∀ buf, b.jobArtifacts j.id ≠ .ok buf) :
    (downloadOne b j).error.isSome = true := by
  unfold downloadOne
  rcases hj : b.jobArtifacts j.id with buf | ⟨s, body⟩ | m
  · exact absurd hj (h buf)
  · rfl
  · rfl

/-- C5: after a successful prologue and job listing, the sequential
download loop of `downloadPipelineArtifacts` produces exactly one
`DownloadOutcome` per artifact-carrying job, in job-listing order, one
archive request per such job; and when exactly one job's download fails
(non-ok status or thrown) while all others succeed, exactly the failed
job's outcome has `success = false` and it carries an error description —
downloads after the failing job are still attempted. -/
theorem downloadPipeline_per_job_outcomes (env : Env) (b : Backend)
    (root : DirPath) (u : Str) (info : GitLabInfo) (tok : Str)
    (P : Nat) (js : List Job) (dl : Option DirPath)
    (hroot : findGitRepository env.fs env.projectPath = some root)
    (hurl : env.remoteUrl = Except.ok u)
    (hgl : isGitLabRepository u = true)
    (hparse : parseGitLabUrl u = some info)
    (htok : env.token = some tok)
    (hjobs : b.listJobs P = .ok js) :
    ∀ W, W = js.filter hasArtifactsFile → W ≠ [] →
    (downloadPipelineArtifacts env b (some P) dl =
      (opOk (msgDownloadSummary ((W.map (downloadOne b)).filter (fun r => r.success)).length
               ((W.map (downloadOne b)).filter (fun r => !r.success)).length)
        { pipelineId := P, jobs := js, jobsWithArtifacts := W,
          downloadedFiles := (W.map (downloadOne b)).filterMap (fun r => r.fileName),
          downloadPath := some (dl.getD (defaultPipelineDir env.projectPath P)),
          downloadResults := W.map (downloadOne b) },
       [.listJobs P] ++ W.map (fun j => .jobArtifacts j.id))) ∧
    ((W.map (downloadOne b)).length = W.length) ∧
    (∀ (i : Nat) (j : Job), W[i]? = some j →
      (W.map (downloadOne b))[i]? = some (downloadOne b j) ∧
      (downloadOne b j).jobId = j.id) ∧
    (∀ j ∈ W, Req.jobArtifacts j.id ∈ (downloadPipelineArtifacts env b (some P) dl).2) ∧
    (∀ (K : Nat) (jK : Job), W[K]? = some jK →
      (∀ buf, b.jobArtifacts jK.id ≠ .ok buf) →
      (∀ (i : Nat) (j : Job), i ≠ K → W[i]? = some j → ∃ buf, b.jobArtifacts j.id = .ok buf) →
      (∀ (i : Nat) (r : DownloadOutcome), (W.map (downloadOne b))[i]? = some r →
        (r.success = false ↔ i = K)) ∧
      (∀ r : DownloadOutcome, (W.map (downloadOne b))[K]? = some r →
        r.error.isSome = true)) := by
  have hres := resolveProject_ok env root u info tok hroot hurl hgl hparse htok
  intro W hWeq hWne
  have hmain : downloadPipelineArtifacts env b (some P) dl =
      (opOk (msgDownloadSummary ((W.map (downloadOne b)).filter (fun r => r.success)).length
               ((W.map (downloadOne b)).filter (fun r => !r.success)).length)
        { pipelineId := P, jobs := js, jobsWithArtifacts := W,
          downloadedFiles := (W.map (downloadOne b)).filterMap (fun r => r.fileName),
          downloadPath := some (dl.getD (defaultPipelineDir env.projectPath P)),
          downloadResults := W.map (downloadOne b) },
       [.listJobs P] ++ W.map (fun j => .jobArtifacts j.id)) := by
    unfold downloadPipelineArtifacts
    rw [hres]
    simp only [resolvePipelineId]
    rw [hjobs]
    simp only [← hWeq]
    rw [if_neg (by simp [List.isEmpty_iff, hWne])]
    rfl
  refine ⟨hmain, List.length_map _ _, ?_, ?_, ?_⟩
  · intro i j hij
    refine ⟨?_, downloadOne_jobId b j⟩
    rw [List.getElem?_map, hij]
    rfl
  · intro j hj
    rw [hmain]
    simp only [List.mem_append, List.mem_map]
    right
    exact ⟨j, hj, rfl⟩
  · intro K jK hK hKfail hothers
    constructor
    · intro i r hir
      rw [List.getElem?_map] at hir
      rcases hWi : W[i]? with _ | j
      · rw [hWi] at hir; simp at hir
      · rw [hWi] at hir
        simp at hir
        subst hir
        constructor
        · intro hfail
          by_contra hne
          obtain ⟨buf, hbuf⟩ := hothers i j hne hWi
          have := (downloadOne_success b j).mpr ⟨buf, hbuf⟩
          rw [this] at hfail
          simp at hfail
        · intro hiK
          subst hiK
          have hjj : j = jK := by
            rw [hWi] at hK
            simpa using hK
          subst hjj
          rcases hsucc : (downloadOne b j).success with _ | _
          · rfl
          · obtain ⟨buf, hbuf⟩ := (downloadOne_success b j).mp hsucc
            exact absurd hbuf (hKfail buf)
    · intro r hr
      rw [List.getElem?_map, hK] at hr
      simp at hr
      subst hr
      exact downloadOne_error_isSome b jK hKfail

/-- A backend with three artifact-carrying jobs whose middle job's
archive download answers HTTP 500 while the others succeed. -/
def sampleBackendDlFail : Backend :=
  { sampleBackend with
    listJobs := fun _ => .ok [sampleJob 1, sampleJob 2, sampleJob 3]
    jobArtifacts := fun i => if i = 2 then .httpError 500 (str "oops") else .ok [9, 9] }

/-- Witness for C5: three jobs, job 2's download fails, the outcome list
has length 3 in job order with exactly the middle entry failed (carrying
an error), and all three downloads were attempted. -/
theorem downloadPipeline_per_job_outcomes_witness :
    (downloadPipelineArtifacts sampleEnv sampleBackendDlFail (some 7) none).1.success = true ∧
    ((downloadPipelineArtifacts sampleEnv sampleBackendDlFail (some 7) none).1.data.map
       (fun d => d.downloadResults.map (fun r => (r.jobId, r.success, r.error.isSome)))) =
      some [(1, true, false), (2, false, true), (3, true, false)] ∧
    (downloadPipelineArtifacts sampleEnv sampleBackendDlFail (some 7) none).2 =
      [.listJobs 7, .jobArtifacts 1, .jobArtifacts 2, .jobArtifacts 3] := by
  have h := downloadPipeline_per_job_outcomes sampleEnv sampleBackendDlFail
    [str "repo"] (str "https://gitlab.com/grp/proj")
    { host := str "gitlab.com", nspace := str "grp", project := str "proj",
      projectId := str "grp%2Fproj" }
    (str "tok") 7 [sampleJob 1, sampleJob 2, sampleJob 3] none
    (by decide) rfl (by decide) (by decide) rfl rfl
    [sampleJob 1, sampleJob 2, sampleJob 3] (by decide) (by decide)
  rw [h.1]
  refine ⟨rfl, by decide, by decide⟩

/-- The shared latest-pipeline block reports "empty" exactly in the
legitimate no-pipelines case: no explicit id and an ok empty list. -/
theorem resolvePipelineId_empty (b : Backend) (pid : Option Nat) (log : List Req)
    (h : resolvePipelineId b pid = (.empty, log)) :
    pid = none ∧ b.listPipelines = .ok [] := by
  cases pid with
  | some p => simp [resolvePipelineId] at h
  | none =>
    rcases hlp : b.listPipelines with (_ | ⟨p, rest⟩) | ⟨s, body⟩ | m <;>
      simp [resolvePipelineId, hlp] at h
    exact ⟨rfl, rfl⟩

/-- Envelope shape of `getLatestPipeline`: failure implies null data, and
a successful null payload happens only on an ok empty pipeline list. -/
theorem getLatestPipeline_envelope (env : Env) (b : Backend) :
    ((getLatestPipeline env b).1.success = false → (getLatestPipeline env b).1.data = none) ∧
    ((getLatestPipeline env b).1.success = true → (getLatestPipeline env b).1.data = none →
      b.listPipelines = .ok []) := by
  unfold getLatestPipeline
  split
  · simp [opFail]
  · split <;> simp_all [opFail, opOk]

/-- Envelope shape of `getPipelineDetails`. -/
theorem getPipelineDetails_envelope (env : Env) (b : Backend) (pid : Option Nat) :
    ((getPipelineDetails env b pid).1.success = false →
       (getPipelineDetails env b pid).1.data = none) ∧
    ((getPipelineDetails env b pid).1.success = true →
       (getPipelineDetails env b pid).1.data = none →
       pid = none ∧ b.listPipelines = .ok []) := by
  unfold getPipelineDetails
  split
  · simp [opFail]
  · split
    · simp [opFail]
    · rename_i heq
      have := resolvePipelineId_empty b pid _ heq
      simp [this]
    · split
      · simp [opFail]
      · simp [opFail]
      · split
        · simp [opFail]
        · split
          · simp [opFail]
          · simp [opOk]

/-- Envelope shape of `getJobDetails`: failure implies null data, success
implies a payload. -/
theorem getJobDetails_envelope (env : Env) (b : Backend) (jid : Nat) :
    ((getJobDetails env b jid).1.success = false → (getJobDetails env b jid).1.data = none) ∧
    ((getJobDetails env b jid).1.success = true →
      (getJobDetails env b jid).1.data.isSome = true) := by
  unfold getJobDetails
  split
  · simp [opFail]
  · split <;> simp [opFail, opOk]

/-- Envelope shape of `getJobLogs`. -/
theorem getJobLogs_envelope (env : Env) (b : Backend) (jid : Nat) :
    ((getJobLogs env b jid).1.success = false → (getJobLogs env b jid).1.data = none) ∧
    ((getJobLogs env b jid).1.success = true →
      (getJobLogs env b jid).1.data.isSome = true) := by
  unfold getJobLogs
  split
  · simp [opFail]
  · split
    · simp [opFail]
    · simp [opFail]
    · split <;> simp [opFail, opOk]

/-- Envelope shape of `getJobArtifacts`. -/
theorem getJobArtifacts_envelope (env : Env) (b : Backend) (jid : Nat) :
    ((getJobArtifacts env b jid).1.success = false →
       (getJobArtifacts env b jid).1.data = none) ∧
    ((getJobArtifacts env b jid).1.success = true →
      (getJobArtifacts env b jid).1.data.isSome = true) := by
  unfold getJobArtifacts
  split
  · simp [opFail]
  · split
    · simp [opFail]
    · simp [opFail]
    · split
      · simp [opFail]
      · simp [opOk]
      · split <;> simp [opFail, opOk]

/-- Envelope shape of `downloadJobArtifacts`. -/
theorem downloadJobArtifacts_envelope (env : Env) (b : Backend) (jid : Nat)
    (dl : Option DirPath) :
    ((downloadJobArtifacts env b jid dl).1.success = false →
       (downloadJobArtifacts env b jid dl).1.data = none) ∧
    ((downloadJobArtifacts env b jid dl).1.success = true →
      (downloadJobArtifacts env b jid dl).1.data.isSome = true) := by
  unfold downloadJobArtifacts
  split
  · simp [opFail]
  · split
    · simp [opFail]
    · simp [opFail]
    · split
      · split <;> simp [opFail, opOk]
      · simp [opOk]

/-- Envelope shape of `downloadPipelineArtifacts`. -/
theorem downloadPipelineArtifacts_envelope (env : Env) (b : Backend)
    (pid : Option Nat) (dl : Option DirPath) :
    ((downloadPipelineArtifacts env b pid dl).1.success = false →
       (downloadPipelineArtifacts env b pid dl).1.data = none) ∧
    ((downloadPipelineArtifacts env b pid dl).1.success = true →
       (downloadPipelineArtifacts env b pid dl).1.data = none →
       pid = none ∧ b.listPipelines = .ok []) := by
  unfold downloadPipelineArtifacts
  split
  · simp [opFail]
  · split
    · simp [opFail]
    · rename_i heq
      have := resolvePipelineId_empty b pid _ heq
      simp [this]
    · split
      · simp [opFail]
      · simp [opFail]
      · dsimp only
        split
        · simp [opOk]
        · simp [opOk]

/-- C8: every public operation returns the `{success, message, data}`
envelope (the model functions are total, mirroring the method-level
try/catch); `success = false` implies `data = null`; and `success = true`
with `data = null` occurs only in the legitimate no-pipelines case — an
omitted pipeline id together with an ok empty pipeline list — while the
single-job operations always carry a payload on success. -/
theorem envelope_invariant (env : Env) (b : Backend) :
    (((getLatestPipeline env b).1.success = false →
        (getLatestPipeline env b).1.data = none) ∧
     ((getLatestPipeline env b).1.success = true →
        (getLatestPipeline env b).1.data = none → b.listPipelines = .ok [])) ∧
    (∀ pid,
      ((getPipelineDetails env b pid).1.success = false →
         (getPipelineDetails env b pid).1.data = none) ∧
      ((getPipelineDetails env b pid).1.success = true →
         (getPipelineDetails env b pid).1.data = none →
         pid = none ∧ b.listPipelines = .ok [])) ∧
    (∀ jid,
      ((getJobDetails env b jid).1.success = false →
         (getJobDetails env b jid).1.data = none) ∧
      ((getJobDetails env b jid).1.success = true →
         (getJobDetails env b jid).1.data.isSome = true)) ∧
    (∀ jid,
      ((getJobLogs env b jid).1.success = false →
         (getJobLogs env b jid).1.data = none) ∧
      ((getJobLogs env b jid).1.success = true →
         (getJobLogs env b jid).1.data.isSome = true)) ∧
    (∀ jid,
      ((getJobArtifacts env b jid).1.success = false →
         (getJobArtifacts env b jid).1.data = none) ∧
      ((getJobArtifacts env b jid).1.success = true →
         (getJobArtifacts env b jid).1.data.isSome = true)) ∧
    (∀ jid dl,
      ((downloadJobArtifacts env b jid dl).1.success = false →
         (downloadJobArtifacts env b jid dl).1.data = none) ∧
      ((downloadJobArtifacts env b jid dl).1.success = true →
         (downloadJobArtifacts env b jid dl).1.data.isSome = true)) ∧
    (∀ pid dl,
      ((downloadPipelineArtifacts env b pid dl).1.success = false →
         (downloadPipelineArtifacts env b pid dl).1.data = none) ∧
      ((downloadPipelineArtifacts env b pid dl).1.success = true →
         (downloadPipelineArtifacts env b pid dl).1.data = none →
         pid = none ∧ b.listPipelines = .ok [])) :=
  ⟨getLatestPipeline_envelope env b,
   fun pid => getPipelineDetails_envelope env b pid,
   fun jid => getJobDetails_envelope env b jid,
   fun jid => getJobLogs_envelope env b jid,
   fun jid => getJobArtifacts_envelope env b jid,
   fun jid dl => downloadJobArtifacts_envelope env b jid dl,
   fun pid dl => downloadPipelineArtifacts_envelope env b pid dl⟩

/-- Witness for C8 at concrete runs: the success-with-null case really
pins down the empty pipeline list, and a successful single-job operation
carries a payload. -/
theorem envelope_invariant_witness :
    sampleBackendEmpty.listPipelines = .ok [] ∧
    (getJobDetails sampleEnv sampleBackend 1).1.data.isSome = true := by
  have h := envelope_invariant sampleEnv sampleBackendEmpty
  have h2 := envelope_invariant sampleEnv sampleBackend
  exact ⟨((h.2.1 none).2 (by decide) (by decide)).2, (h2.2.2.1 1).2 (by decide)⟩
